import Mathlib

/-!
# SoloNFT SDK: connection and correlation core

A shallow embedding of `src/source/ClientSocket.js` (classes `ClientRequest`
and `ClientSocket`) and `src/source/watcher.js` (class `Watcher`), with the
properties of the specification stated and proved over it.

JavaScript objects with identity (request sessions, subscriptions, sockets)
are kept in explicit stores; every call of a function the core does not own
(a subscription action, a response handler, the completion function of an
eventual response, the transport `send`) is recorded as an `Effect`.
The functions of the Acid library and of the socket that are not among the
sources are parameters of the model wherever the sources do not fix what they
answer or whether they raise. Console output is not modelled and the `debug`
flag is off. Response handlers and subscription actions are taken not to call
back into the core while they run.
-/

namespace SoloNFTSDK

/-! ## JavaScript values -/

/-- Values a decoded message, a payload or a message field can take. A number
is kept as the string JavaScript converts it to, which is also its property
key: `0` for both zeros, `1.5`, `1e+21`, `NaN`. -/
inductive JsValue where
  | undefined
  | null
  | bool (b : Bool)
  | num (rendering : String)
  | str (s : String)
  | arr (items : List JsValue)
  | obj (fields : List (String × JsValue))

/-- Exceptions raised by the code or by the functions it calls. -/
inductive JsError where
  | typeError
  | syntaxError
  | thrown (what : String)
  deriving DecidableEq

/-- Own properties of a plain object, in insertion order. -/
abbrev Fields (α : Type) := List (String × α)

/-- Read of an own property: the value stored under the first entry of the key. -/
def Fields.own {α : Type} : Fields α → String → Option α
  | [], _ => none
  | (k, v) :: rest, key => if k = key then some v else Fields.own rest key

/-- Assignment `object[key] = value`, for a key other than `__proto__`:
overwrites the entry of the key, or adds one at the end. -/
def Fields.assign {α : Type} : Fields α → String → α → Fields α
  | [], key, value => [(key, value)]
  | (k, v) :: rest, key, value =>
    if k = key then (k, value) :: rest else (k, v) :: Fields.assign rest key value

namespace JsValue

/-- JavaScript truthiness, as tested by `!x`, `if (x)` and `x || y`. -/
def truthy : JsValue → Bool
  | .undefined => false
  | .null => false
  | .bool b => b
  | .num rendering => rendering != "0" && rendering != "NaN"
  | .str s => s != ""
  | .arr _ => true
  | .obj _ => true

mutual
/-- The conversion of a value to a string, as a property key (`table[value]`)
and as the argument of `test`. A decoded object has no callable property, so
an object with an own property `toString` cannot be converted and the
conversion raises a TypeError; any other object gives `[object Object]`. -/
def toPropertyKey : JsValue → Except JsError String
  | .undefined => .ok "undefined"
  | .null => .ok "null"
  | .bool true => .ok "true"
  | .bool false => .ok "false"
  | .num rendering => .ok rendering
  | .str s => .ok s
  | .arr items => joinItems items
  | .obj fields =>
    match Fields.own fields "toString" with
    | some _ => .error .typeError
    | none => .ok "[object Object]"
termination_by structural v => v
/-- The elements of an array converted from left to right and joined by
commas; `null` and `undefined` give the empty string. -/
def joinItems : List JsValue → Except JsError String
  | [] => .ok ""
  | x :: rest =>
    let head : Except JsError String :=
      match x with
      | .undefined => .ok ""
      | .null => .ok ""
      | v => toPropertyKey v
    match head, joinItems rest with
    | .ok first, .ok others =>
      .ok (first
        ++ (match rest with
          | [] => ""
          | _ => ",")
        ++ others)
    | .error e, _ => .error e
    | _, .error e => .error e
termination_by structural l => l
end

/-- Property read `value.name` for the names the core reads from decoded
messages (`id`, `body`, `type`, `path`), none of which is defined on a built-in
prototype: reading from `null` or `undefined` raises a TypeError, an object
gives its own property, every other value gives `undefined`. -/
def get (v : JsValue) (name : String) : Except JsError JsValue :=
  match v with
  | .undefined => .error .typeError
  | .null => .error .typeError
  | .obj fields =>
    match Fields.own fields name with
    | some x => .ok x
    | none => .ok .undefined
  | _ => .ok .undefined

end JsValue

/-- The properties every plain object inherits from `Object.prototype`, each
with the `length` of the inherited value (`none` where it has no `length`). All
of the inherited values are truthy and none has a property `received` or `push`. -/
def objectPrototype : Fields (Option Nat) :=
  [("constructor", some 1), ("__defineGetter__", some 2), ("__defineSetter__", some 2),
   ("hasOwnProperty", some 1), ("__lookupGetter__", some 1), ("__lookupSetter__", some 1),
   ("isPrototypeOf", some 1), ("propertyIsEnumerable", some 1), ("toString", some 0),
   ("valueOf", some 0), ("__proto__", none), ("toLocaleString", some 0)]

/-- Result of the property read `table[key]` on a plain object used as a table. -/
inductive Lookup (α : Type) where
  | own (value : α)
  | inherited (length : Option Nat)
  | missing

/-- Property read `table[key]`: an own property first, then `Object.prototype`. -/
def Fields.lookup {α : Type} (table : Fields α) (key : String) : Lookup α :=
  match Fields.own table key with
  | some v => .own v
  | none =>
    match Fields.own objectPrototype key with
    | some len => .inherited len
    | none => .missing

/-! ## Event router (`watcher.js`) -/

/-- A regular expression object. `object` is its identity, under which the
router keeps its `lastIndex`; `global` tells whether it carries the flag `g`
or `y`; `exec start text` is the attempt to match `text` from the index
`start` (an index beyond the text fails), with the index at which the match
found ends. -/
structure RegExp where
  object : Nat
  global : Bool
  exec : Nat → String → Option Nat

/-- The method `test(text)` of a regular expression, given the `lastIndex` of
every regular expression object: the answer and the `lastIndex` afterwards.
Without the flags `g` and `y` the match is tried from index 0 and `lastIndex`
is not touched. With one of them the match is tried from `lastIndex`, which
becomes the end of the match found, or 0 when there is none. -/
def RegExp.test (re : RegExp) (lastIndex : Nat → Nat) (text : String) : Bool × (Nat → Nat) :=
  if re.global then
    match re.exec (lastIndex re.object) text with
    | some finish => (true, fun object => if object = re.object then finish else lastIndex object)
    | none => (false, fun object => if object = re.object then 0 else lastIndex object)
  else
    ((re.exec 0 text).isSome, lastIndex)

/-- The first argument of `watch`: a topic string, a regular expression, or
anything else. -/
inductive EventName where
  | text (topic : String)
  | pattern (regex : RegExp)
  | other

/-- The field `eventType` set by the constructor. -/
inductive EventType where
  | string
  | regex
  deriving DecidableEq

/-- A `Watcher` instance: its identity and the fields set once by the constructor. -/
structure Watcher where
  ref : Nat
  eventType : Option EventType
  eventName : EventName
  eventAction : JsValue → Except JsError Unit

/-- The fields `id` and `active` of a `Watcher` instance, which `start` and `stop` rewrite. -/
structure WatcherCell where
  id : Option Nat
  active : Option Bool
  deriving DecidableEq

/-- The static members of `Watcher`, the mutable fields of every instance
created so far, indexed by `Watcher.ref`, and the `lastIndex` of every regular
expression object, by its identity. -/
structure Router where
  containerRegex : List Watcher
  containerPrimary : Fields (List Watcher)
  status : Bool
  cells : List WatcherCell
  lastIndex : Nat → Nat

/-- The router when the module is loaded; regular expressions are as they are
when created, with `lastIndex` 0. -/
def Router.initial : Router :=
  { containerRegex := [], containerPrimary := [], status := true, cells := [],
    lastIndex := fun _ => 0 }

/-- What a dispatch did: the calls `eventAction(body)` it made, in order, as
(subscription, argument), and the error the dispatch failed with, if any. -/
structure Dispatch where
  calls : List (Nat × JsValue)
  failure : Option JsError

/-- The helper `eachAsync` of the Acid library, which is not among the
sources: an asynchronous loop that calls the iteratee on each element in index
order and awaits each call before the next. Nothing catches a failure, so a
failing call ends the iteration with that failure. The state the calls read
and write is carried from one call to the next. -/
def eachAsync {α σ : Type} (source : List α) (iteratee : α → σ → Dispatch × σ) (state : σ) :
    Dispatch × σ :=
  match source with
  | [] => ({ calls := [], failure := none }, state)
  | x :: rest =>
    let first := iteratee x state
    match first.1.failure with
    | some e => ({ calls := first.1.calls, failure := some e }, first.2)
    | none =>
      let others := eachAsync rest iteratee first.2
      ({ calls := first.1.calls ++ others.1.calls, failure := others.1.failure }, others.2)

/-- The call `watcher.eventAction(body)`. -/
def Watcher.invoke (watcher : Watcher) (body : JsValue) : Dispatch :=
  { calls := [(watcher.ref, body)]
    failure := match watcher.eventAction body with
      | .ok _ => none
      | .error e => some e }

/-- The calls `watcher.eventAction(body)` that `eachAsync` makes on an array
of subscriptions: in index order, each awaited before the next, ended by the
first that fails. -/
def Watcher.invokeAll (watchers : List Watcher) (body : JsValue) : Dispatch :=
  (eachAsync watchers (fun watcher (state : Unit) => (watcher.invoke body, state)) ()).1

/-- The test `watcher.eventName.test(type) || watcher.eventName.test(path)`,
given the `lastIndex` of every regular expression: the answer, or the error
raised, and the `lastIndex` afterwards. Each call of `test` converts its
argument to a string; the path is tested only when the type is not accepted.
A value that is not a regular expression has no `test` to call. -/
def Watcher.test (watcher : Watcher) (lastIndex : Nat → Nat) (type path : JsValue) :
    Except JsError Bool × (Nat → Nat) :=
  match watcher.eventName with
  | .pattern regex =>
    match type.toPropertyKey with
    | .error e => (.error e, lastIndex)
    | .ok typeText =>
      let first := regex.test lastIndex typeText
      if first.1 then (.ok true, first.2)
      else
        match path.toPropertyKey with
        | .error e => (.error e, first.2)
        | .ok pathText =>
          let second := regex.test first.2 pathText
          (.ok second.1, second.2)
  | _ => (.error .typeError, lastIndex)

/-- The iteratee of the first `eachAsync` in `Watcher.update`. -/
def Watcher.updateRegex (type path body : JsValue) (watcher : Watcher)
    (lastIndex : Nat → Nat) : Dispatch × (Nat → Nat) :=
  match watcher.test lastIndex type path with
  | (.error e, tested) => ({ calls := [], failure := some e }, tested)
  | (.ok true, tested) => (watcher.invoke body, tested)
  | (.ok false, tested) => ({ calls := [], failure := none }, tested)

/-- The second `eachAsync` of `Watcher.update`, over `levelObject`: an array of
subscriptions, or an inherited value, whose element 0 is `undefined`. -/
def Watcher.updateLevel (levelObject : Lookup (List Watcher)) (body : JsValue) : Dispatch :=
  match levelObject with
  | .own watchers => Watcher.invokeAll watchers body
  | .inherited (some (_ + 1)) => { calls := [], failure := some .typeError }
  | .inherited _ => { calls := [], failure := none }
  | .missing => { calls := [], failure := none }

/-- The expression `Watcher.containerPrimary[type] || Watcher.containerPrimary[path]`.
Each read converts its key to a string, which can raise; the path is read
only when nothing is found under the type. -/
def Router.levelObject (r : Router) (type path : JsValue) :
    Except JsError (Lookup (List Watcher)) :=
  match type.toPropertyKey with
  | .error e => .error e
  | .ok typeKey =>
    match r.containerPrimary.lookup typeKey with
    | .missing =>
      match path.toPropertyKey with
      | .error e => .error e
      | .ok pathKey => .ok (r.containerPrimary.lookup pathKey)
    | found => .ok found

/-- The static method `Watcher.update(pushUpdate)`: what the dispatch did, and
the `lastIndex` of every regular expression afterwards. -/
def Watcher.dispatch (r : Router) (pushUpdate : JsValue) : Dispatch × (Nat → Nat) :=
  match pushUpdate.get "body" with
  | .error e => ({ calls := [], failure := some e }, r.lastIndex)
  | .ok body =>
    if !r.status || !body.truthy then ({ calls := [], failure := none }, r.lastIndex)
    else
      match body.get "type", body.get "path" with
      | .ok type, .ok path =>
        match r.levelObject type path with
        | .error e => ({ calls := [], failure := some e }, r.lastIndex)
        | .ok levelObject =>
          let first := eachAsync r.containerRegex (Watcher.updateRegex type path body) r.lastIndex
          match first.1.failure with
          | some e => ({ calls := first.1.calls, failure := some e }, first.2)
          | none =>
            let second := Watcher.updateLevel levelObject body
            ({ calls := first.1.calls ++ second.calls, failure := second.failure }, first.2)
      | .error e, _ => ({ calls := [], failure := some e }, r.lastIndex)
      | _, .error e => ({ calls := [], failure := some e }, r.lastIndex)

/-- What a call of `Watcher.update(pushUpdate)` does: the calls it makes and the
error it fails with. -/
def Watcher.update (r : Router) (pushUpdate : JsValue) : Dispatch :=
  (Watcher.dispatch r pushUpdate).1

/-- The router after a call of `Watcher.update(pushUpdate)`: the tests have
moved the `lastIndex` of the regular expressions that carry the flag `g` or
`y`; nothing else has changed. -/
def Watcher.updated (r : Router) (pushUpdate : JsValue) : Router :=
  { r with lastIndex := (Watcher.dispatch r pushUpdate).2 }

/-- The method `container()`: the array the subscription is kept in, as the
value of the expression the method returns. -/
def Watcher.container (r : Router) (watcher : Watcher) : Lookup (List Watcher) :=
  match watcher.eventType, watcher.eventName with
  | some .string, .text topic => r.containerPrimary.lookup topic
  | some .string, _ => .missing
  | some .regex, _ => .own r.containerRegex
  | none, _ => .missing

/-- The method `start()`: registers the subscription at the end of its
container unless it has an `id`. Calling `push` on a value that is not an
array raises a TypeError. A handle that names no instance is left alone. -/
def Watcher.start (r : Router) (watcher : Watcher) : Except JsError Router :=
  match r.cells[watcher.ref]? with
  | none => .ok r
  | some cell =>
    match cell.id with
    | some _ => .ok r
    | none =>
      match Watcher.container r watcher, watcher.eventType, watcher.eventName with
      | .own watchers, some .string, .text topic =>
        .ok { r with
          containerPrimary := r.containerPrimary.assign topic (watchers ++ [watcher])
          cells := r.cells.set watcher.ref { id := some watchers.length, active := some true } }
      | .own watchers, some .regex, _ =>
        .ok { r with
          containerRegex := watchers ++ [watcher]
          cells := r.cells.set watcher.ref { id := some watchers.length, active := some true } }
      | _, _, _ => .error .typeError

/-- The constructor `new Watcher(eventName, eventAction)`: returns the router
with the new instance registered, and the instance. -/
def Watcher.new (r : Router) (eventName : EventName)
    (eventAction : JsValue → Except JsError Unit) : Except JsError (Router × Watcher) :=
  let prepared : Router × Option EventType :=
    match eventName with
    | .text topic =>
      match r.containerPrimary.lookup topic with
      | .missing => ({ r with containerPrimary := r.containerPrimary.assign topic [] }, some .string)
      | _ => (r, some .string)
    | .pattern _ => (r, some .regex)
    | .other => (r, none)
  let watcher : Watcher :=
    { ref := r.cells.length, eventType := prepared.2, eventName := eventName,
      eventAction := eventAction }
  let created : Router :=
    { prepared.1 with cells := prepared.1.cells ++ [{ id := none, active := none }] }
  match Watcher.start created watcher with
  | .ok started => .ok (started, watcher)
  | .error e => .error e

/-- The function `watch(eventName, callback)`. -/
def watch (r : Router) (eventName : EventName)
    (callback : JsValue → Except JsError Unit) : Except JsError (Router × Watcher) :=
  Watcher.new r eventName callback

/-- The helper `drop(array, amount)` of the Acid library, which is not among
the sources: `array.splice(amount, upTo)` with `upTo` defaulting to the length
of the array. It removes from the array every element from the index
`amount` on and leaves the elements before that index in place. -/
def drop {α : Type} (array : List α) (amount : Nat) : List α :=
  array.take amount

/-- Modelled from the spec: the removal the spec describes for `stop`, in the
place of the helper `drop`, which is not among the sources. "Container
compaction": the one element at the index leaves the array and the elements
after it move down by one. -/
def dropOne {α : Type} (array : List α) (index : Nat) : List α :=
  array.eraseIdx index

/-- The method `stop()`: while the subscription has an `id`, calls
`drop(this.container(), this.id)` and sets `id` to `null` and `active` to
`false`. The helper `drop` is a parameter, given as the array it leaves. A
container that is not an array makes the helper raise a TypeError. A handle
that names no instance is left alone. -/
def Watcher.stop (drop : List Watcher → Nat → List Watcher) (r : Router) (watcher : Watcher) :
    Except JsError Router :=
  match r.cells[watcher.ref]? with
  | none => .ok r
  | some cell =>
    match cell.id with
    | none => .ok r
    | some id =>
      match Watcher.container r watcher, watcher.eventType, watcher.eventName with
      | .own watchers, some .string, .text topic =>
        .ok { r with
          containerPrimary := r.containerPrimary.assign topic (drop watchers id)
          cells := r.cells.set watcher.ref { id := none, active := some false } }
      | .own watchers, some .regex, _ =>
        .ok { r with
          containerRegex := drop watchers id
          cells := r.cells.set watcher.ref { id := none, active := some false } }
      | _, _, _ => .error .typeError

/-- An operation of the owner on the router: a subscription is made, or a
subscription made earlier is stopped. -/
inductive RouterOp where
  | watch (eventName : EventName) (eventAction : JsValue → Except JsError Unit)
  | stop (watcher : Watcher)

/-- The router after an operation. An operation that raises has left the
router as it was. -/
def Router.apply (drop : List Watcher → Nat → List Watcher) (r : Router) : RouterOp → Router
  | .watch eventName eventAction =>
    match watch r eventName eventAction with
    | .ok created => created.1
    | .error _ => r
  | .stop watcher =>
    match Watcher.stop drop r watcher with
    | .ok stopped => stopped
    | .error _ => r

/-- The router after a sequence of operations. -/
def Router.applyAll (drop : List Watcher → Nat → List Watcher) (r : Router)
    (ops : List RouterOp) : Router :=
  ops.foldl (Router.apply drop) r

/-! ## Request sessions and the connection (`ClientSocket.js`) -/

/-- Modelled from the spec: the identifier allocator `uid` of the Acid library,
which is not among the sources. It "issues unique correlation identifiers for
in-flight requests and reclaims them on completion": `allocate` returns a
value not in use, `release(id)` marks the identifier free for reuse. Kept as
the next unused number and the released identifiers awaiting reuse. -/
structure Uid where
  count : Nat
  released : List String

/-- The allocator when the module is loaded. -/
def Uid.initial : Uid := { count := 0, released := [] }

/-- Modelled from the spec: `allocate()`, called as `uid().toString()`. It
returns an identifier that is not in use: the oldest released identifier if
there is one, otherwise the numeral of the next unused number. -/
def Uid.uid (u : Uid) : String × Uid :=
  match u.released with
  | id :: rest => (id, { u with released := rest })
  | [] => (toString u.count, { u with count := u.count + 1 })

/-- Modelled from the spec: `release(id)`, called as `uid.free(id)`. The
identifier is marked free for reuse. -/
def Uid.free (u : Uid) (id : String) : Uid :=
  { u with released := u.released ++ [id] }

/-- A `ClientRequest` instance. `callback` is the identity of the response
handler, if one was given. `response` is `none` until `accept` is called, and
the value `accept` was first called with afterwards. `failed` is the error
raised inside `send()` while the eventual response was being created, if
any: the eventual response was rejected with it there and then. -/
structure ClientRequest where
  id : String
  payload : Fields JsValue
  callback : Option Nat
  response : Option JsValue
  failed : Option JsError := none

/-- The state of an eventual response. -/
inductive Eventual where
  | pending
  | fulfilled (value : JsValue)
  | rejected (error : JsError)

/-- The eventual response `send()` returned for a session: rejected if the
call of `client.send` raised, completed with the value `accept` was first
called with otherwise, pending until then. -/
def ClientRequest.eventual (context : ClientRequest) : Eventual :=
  match context.failed, context.response with
  | some e, _ => .rejected e
  | none, some value => .fulfilled value
  | none, none => .pending

/-- The two functions `ClientSocket.send` calls that are not among the
sources. `isPlainObject` is the helper of the Acid library, with its answer
or the error it raises. `send` is the method of the WebSocket object, with the
error it raises when it does not take the message. -/
structure Outbound where
  isPlainObject : JsValue → Except JsError Bool
  send : JsValue → Except JsError Unit

/-- A WebSocket object: its `readyState` (0 connecting, 1 open, 2 closing,
3 closed) and, for each handler property, whether the handler the client
installs is attached (`true`) or the property is `null` or unset (`false`). -/
structure Socket where
  readyState : Nat
  onopen : Bool
  onmessage : Bool
  onclose : Bool
  onerror : Bool
  deriving DecidableEq

/-- The fields of a `ClientSocket` instance. `connectInterval` is `none` when
the field is `undefined` or `null`, and the timer handle otherwise. An entry
of `requests` holds the index of a session, or `none` for `null`. -/
structure ClientSocket where
  connectionStatus : String
  status : Nat
  requests : Fields (Option Nat)
  connectInterval : Option Nat
  socket : Socket

/-- Everything the core reads and writes: the client, the sockets it created
earlier and no longer refers to, the request sessions in creation order, the
active interval timers of the host, the allocator and the router. -/
structure Runtime where
  client : ClientSocket
  stale : List Socket
  sessions : List ClientRequest
  timers : List Nat
  nextTimer : Nat
  uid : Uid
  router : Router

/-- A call of a function the core does not own. -/
inductive Effect where
  | action (watcher : Nat) (body : JsValue)
  | callback (request : Nat) (response : JsValue)
  | accept (request : Nat) (response : JsValue)
  | socketSend (data : JsValue)

/-- How a call ended: the calls it made, the exception it raised to its caller
(`raised`), and the error its returned eventual result failed with (`rejected`). -/
structure Outcome where
  effects : List Effect
  raised : Option JsError
  rejected : Option JsError

/-- A call that did nothing and returned normally. -/
def Outcome.quiet : Outcome := { effects := [], raised := none, rejected := none }

/-- The socket `construct(WebSocketClass, [hostname])` returns, with the two
handlers `connect()` installs on it. -/
def Socket.fresh : Socket :=
  { readyState := 0, onopen := true, onmessage := false, onclose := false, onerror := true }

/-- The call `socket.close()`: a connecting or open socket starts closing. -/
def Socket.close (s : Socket) : Socket :=
  if s.readyState = 0 ∨ s.readyState = 1 then { s with readyState := 2 } else s

/-- The method `ClientSocket.reconnect()`: nothing while `connectInterval` has
a value; otherwise the four handlers of the socket are set to `null`, the
socket is closed and an interval timer is started and kept in
`connectInterval`. -/
def ClientSocket.reconnect (st : Runtime) : Runtime :=
  match st.client.connectInterval with
  | some _ => st
  | none =>
    let socket : Socket :=
      Socket.close
        { st.client.socket with
          onopen := false, onmessage := false, onclose := false, onerror := false }
    { st with
      client := { st.client with socket := socket, connectInterval := some st.nextTimer }
      timers := st.timers ++ [st.nextTimer]
      nextTimer := st.nextTimer + 1 }

/-- The method `ClientSocket.onopen(context, accept)`: clears the interval
timer kept in `connectInterval`, if any, installs the message and close
handlers on the current socket and marks the connection open. -/
def ClientSocket.onopen (st : Runtime) : Runtime :=
  let cleared : Runtime :=
    match st.client.connectInterval with
    | some handle =>
      { st with
        timers := st.timers.filter (fun t => t != handle)
        client := { st.client with connectInterval := none } }
    | none => st
  { cleared with
    client :=
      { cleared.client with
        socket := { cleared.client.socket with onmessage := true, onclose := true }
        connectionStatus := "open"
        status := 1 } }

/-- The method `ClientSocket.onclose(context)`, which is also the body of the
close handler that `onopen` installs. -/
def ClientSocket.onclose (st : Runtime) : Runtime :=
  match st.client.connectInterval with
  | some _ => st
  | none =>
    ClientSocket.reconnect
      { st with client := { st.client with connectionStatus := "closed", status := 0 } }

/-- The method `ClientSocket.connect()`: a new socket with the open and error
handlers replaces the one in `socket`, which the client no longer refers to. -/
def ClientSocket.connect (st : Runtime) : Runtime :=
  { st with
    stale := st.stale ++ [st.client.socket]
    client := { st.client with socket := Socket.fresh } }

/-- The call `this.socket.send(message)` inside `ClientSocket.send`, followed
by `return true`: the call is made, and `send` returns `true` unless the
socket raises. -/
def ClientSocket.handOver (outbound : Outbound) (st : Runtime) (message : JsValue) :
    Runtime × Except JsError Bool × List Effect :=
  match outbound.send message with
  | .ok _ => (st, .ok true, [.socketSend message])
  | .error e => (st, .error e, [.socketSend message])

/-- The method `ClientSocket.send(data)`: the runtime afterwards, the value
returned or the error raised, and the calls made. `stringify` is the helper of
the Acid library. On an open socket a value `isPlainObject` accepts is
serialized; a string and any other value are handed over as they are, so the
answer of `isString` makes no difference. Nothing catches an error the helper
or the socket raises. -/
def ClientSocket.send (stringify : JsValue → String) (outbound : Outbound) (st : Runtime)
    (data : JsValue) : Runtime × Except JsError Bool × List Effect :=
  if st.client.socket.readyState = 1 then
    match outbound.isPlainObject data with
    | .error e => (st, .error e, [])
    | .ok true => ClientSocket.handOver outbound st (.str (stringify data))
    | .ok false => ClientSocket.handOver outbound st data
  else
    (ClientSocket.reconnect st, .ok false, [])

/-- The constructor `new ClientRequest(client, payload, callback)`: takes an
identifier, writes it to the payload, and registers the session under it.
Returns the runtime afterwards and the index of the new session. -/
def ClientRequest.new (st : Runtime) (payload : Fields JsValue) (callback : Option Nat) :
    Runtime × Nat :=
  let allocated := st.uid.uid
  let id := allocated.1
  let context : ClientRequest :=
    { id := id, payload := Fields.assign payload "id" (.str id), callback := callback,
      response := none }
  ({ st with
      uid := allocated.2
      sessions := st.sessions ++ [context]
      client := { st.client with
        requests := st.client.requests.assign id (some st.sessions.length) } },
    st.sessions.length)

/-- The method `ClientRequest.send()` of session `k`: creates the eventual
response, pending, and hands the payload to `client.send`, whose returned
value it drops. An error `client.send` raises there rejects the eventual
response. -/
def ClientRequest.send (stringify : JsValue → String) (outbound : Outbound) (st : Runtime)
    (k : Nat) : Runtime × List Effect :=
  match st.sessions[k]? with
  | none => (st, [])
  | some context =>
    let sent := ClientSocket.send stringify outbound st (.obj context.payload)
    match sent.2.1 with
    | .ok _ => (sent.1, sent.2.2)
    | .error e =>
      ({ sent.1 with sessions := sent.1.sessions.set k { context with failed := some e } },
        sent.2.2)

/-- The method `ClientSocket.request(payload, callback)`: the runtime
afterwards, the index of the session whose `response` is the eventual response
returned to the caller, and the calls made. -/
def ClientSocket.request (stringify : JsValue → String) (outbound : Outbound) (st : Runtime)
    (payload : Fields JsValue) (callback : Option Nat) : Runtime × Nat × List Effect :=
  let requested := ClientRequest.new st payload callback
  let sent := ClientRequest.send stringify outbound requested.1 requested.2
  (sent.1, requested.2, sent.2)

/-- The method `ClientRequest.resolve(response)` of session `k`: sets the table
entry of the session identifier to `null`, frees the identifier and calls
`accept(response)`, which completes the eventual response if it is pending.
The first value `accept` is called with is kept in `response`. -/
def ClientRequest.resolve (st : Runtime) (k : Nat) (response : JsValue) :
    Runtime × List Effect :=
  match st.sessions[k]? with
  | none => (st, [])
  | some context =>
    let accepted : ClientRequest :=
      match context.response with
      | some _ => context
      | none => { context with response := some response }
    ({ st with
        client := { st.client with requests := st.client.requests.assign context.id none }
        uid := st.uid.free context.id
        sessions := st.sessions.set k accepted },
      [.accept k response])

/-- The method `ClientRequest.received(response)` of session `k`: calls the
response handler with the response and the session if there is one, and
resolves the session otherwise. -/
def ClientRequest.received (st : Runtime) (k : Nat) (response : JsValue) :
    Runtime × List Effect :=
  match st.sessions[k]? with
  | none => (st, [])
  | some context =>
    match context.callback with
    | some _ => (st, [.callback k response])
    | none => ClientRequest.resolve st k response

/-- The method `SoloNFT.update(liveUpdate)` of `index.js`, called by `process`
as `this.app.update`. -/
def SoloNFT.update (r : Router) (liveUpdate : JsValue) : Dispatch :=
  Watcher.update r liveUpdate

/-- The method `ClientSocket.process(response)`. `jsonParse` is the helper of
the Acid library, which raises on text that is not JSON. The read
`this.requests[compiledResponse.id]` converts the `id` to a property key,
which can raise. -/
def ClientSocket.process (jsonParse : String → Except JsError JsValue) (st : Runtime)
    (response : String) : Runtime × Outcome :=
  match jsonParse response with
  | .error e => (st, { effects := [], raised := some e, rejected := none })
  | .ok compiledResponse =>
    match compiledResponse.get "id" with
    | .error e => (st, { effects := [], raised := some e, rejected := none })
    | .ok id =>
      if !id.truthy then
        let dispatched := SoloNFT.update st.router compiledResponse
        ({ st with router := Watcher.updated st.router compiledResponse },
          { effects := dispatched.calls.map (fun call => Effect.action call.1 call.2)
            raised := none
            rejected := dispatched.failure })
      else
        match id.toPropertyKey with
        | .error e => (st, { effects := [], raised := some e, rejected := none })
        | .ok key =>
          match st.client.requests.lookup key with
          | .own (some k) =>
            let delivered := ClientRequest.received st k compiledResponse
            (delivered.1, { effects := delivered.2, raised := none, rejected := none })
          | .own none => (st, Outcome.quiet)
          | .missing => (st, Outcome.quiet)
          | .inherited _ =>
            (st, { effects := [], raised := some .typeError, rejected := none })

/-- The runtime once `new ClientSocket(app)` has returned: the constructor has
called `connect()`; no request was made and no subscription registered. -/
def Runtime.initial : Runtime :=
  { client :=
      { connectionStatus := "closed", status := 0, requests := [], connectInterval := none,
        socket := Socket.fresh }
    stale := []
    sessions := []
    timers := []
    nextTimer := 1
    uid := Uid.initial
    router := Router.initial }

/-! ## The client as a transition system -/

/-- A socket the transport can raise an event on: the one the client refers
to, or one it created earlier. -/
inductive SocketRef where
  | current
  | stale (index : Nat)
  deriving DecidableEq

/-- What can happen to the client: calls of its methods by the owner, the
interval timer firing, and the events of the transport. -/
inductive Event where
  | connect
  | reconnect
  | send (data : JsValue)
  | request (payload : Fields JsValue) (callback : Option Nat)
  | resolve (session : Nat) (response : JsValue)
  | timer (handle : Nat)
  | opened (socket : SocketRef)
  | closed (socket : SocketRef)
  | errored (socket : SocketRef)
  | message (socket : SocketRef) (data : String)
  | watch (eventName : EventName) (eventAction : JsValue → Except JsError Unit)

/-- The socket a reference names, if there is one. -/
def Runtime.socketAt (st : Runtime) : SocketRef → Option Socket
  | .current => some st.client.socket
  | .stale index => st.stale[index]?

/-- The transport changes the `readyState` of a socket. -/
def Runtime.setReadyState (st : Runtime) (ref : SocketRef) (readyState : Nat) : Runtime :=
  match ref with
  | .current =>
    { st with client := { st.client with
        socket := { st.client.socket with readyState := readyState } } }
  | .stale index =>
    { st with stale := st.stale.modify (fun s => { s with readyState := readyState }) index }

/-- One event. The handlers of a socket are closures over the client, so they
act on the client and on the socket it refers to when they run, whichever
socket the event was raised on. An interval timer calls `connect()` each time
it fires. A socket opens only while connecting, closes once, and delivers
messages only while open. -/
def step (jsonParse : String → Except JsError JsValue) (stringify : JsValue → String)
    (outbound : Outbound) (st : Runtime) : Event → Runtime
  | .connect => ClientSocket.connect st
  | .reconnect => ClientSocket.reconnect st
  | .send data => (ClientSocket.send stringify outbound st data).1
  | .request payload callback =>
    (ClientSocket.request stringify outbound st payload callback).1
  | .resolve session response => (ClientRequest.resolve st session response).1
  | .timer handle => if handle ∈ st.timers then ClientSocket.connect st else st
  | .opened ref =>
    match st.socketAt ref with
    | none => st
    | some socket =>
      if socket.readyState = 0 then
        let st1 := st.setReadyState ref 1
        if socket.onopen then ClientSocket.onopen st1 else st1
      else st
  | .closed ref =>
    match st.socketAt ref with
    | none => st
    | some socket =>
      if socket.readyState = 3 then st
      else
        let st1 := st.setReadyState ref 3
        if socket.onclose then ClientSocket.onclose st1 else st1
  | .errored ref =>
    match st.socketAt ref with
    | none => st
    | some socket => if socket.onerror then ClientSocket.onclose st else st
  | .message ref data =>
    match st.socketAt ref with
    | none => st
    | some socket =>
      if socket.readyState = 1 ∧ socket.onmessage then (ClientSocket.process jsonParse st data).1
      else st
  | .watch eventName eventAction =>
    match watch st.router eventName eventAction with
    | .ok created => { st with router := created.1 }
    | .error _ => st

/-- The runtime after a sequence of events. -/
def run (jsonParse : String → Except JsError JsValue) (stringify : JsValue → String)
    (outbound : Outbound) (st : Runtime) (events : List Event) : Runtime :=
  events.foldl (step jsonParse stringify outbound) st

/-- The states the client can be in: those a sequence of events leads to from
the state the constructor leaves. -/
def Reachable (jsonParse : String → Except JsError JsValue) (stringify : JsValue → String)
    (outbound : Outbound) (st : Runtime) : Prop :=
  ∃ events : List Event, run jsonParse stringify outbound Runtime.initial events = st

/-! ## Invariants -/

/-- An identifier the allocator has handed out: the numeral of a number below
its counter. -/
def Uid.Issued (u : Uid) (id : String) : Prop :=
  ∃ n : Nat, n < u.count ∧ id = toString n

/-- Every identifier a session carries, and every identifier the allocator
holds for reuse, was handed out by the allocator. -/
def Runtime.IdsIssued (st : Runtime) : Prop :=
  (∀ id ∈ st.uid.released, st.uid.Issued id)
    ∧ (∀ context ∈ st.sessions, st.uid.Issued context.id)

/-- The interval timers of the host are the one kept in `connectInterval`, if
there is one, and no other. -/
def Runtime.TimerKept (st : Runtime) : Prop :=
  st.timers = st.client.connectInterval.toList

/-- The correlation invariant, on the sessions, the table and the allocator:
identifiers come from the allocator, no identifier is held for reuse twice,
a pending session (one whose eventual response is not completed) carries an
identifier that is not free and is the table entry of that identifier, and
the table registers pending sessions only, each under its own identifier. -/
structure Correlated (sessions : List ClientRequest) (requests : Fields (Option Nat))
    (u : Uid) : Prop where
  released_issued : ∀ id ∈ u.released, u.Issued id
  sessions_issued : ∀ (k : Nat) (c : ClientRequest), sessions[k]? = some c → u.Issued c.id
  released_nodup : u.released.Nodup
  pending_registered : ∀ (k : Nat) (c : ClientRequest), sessions[k]? = some c →
    c.response = none → c.id ∉ u.released ∧ Fields.own requests c.id = some (some k)
  registered_pending : ∀ (id : String) (k : Nat), Fields.own requests id = some (some k) →
    ∃ c : ClientRequest, sessions[k]? = some c ∧ c.response = none ∧ c.id = id

/-- The correlation invariant of a state of the client. -/
def Runtime.Correlated (st : Runtime) : Prop :=
  SoloNFTSDK.Correlated st.sessions st.client.requests st.uid

/-- An event that resolves no session a second time: a call of `resolve` is
made on a session whose eventual response is still pending. -/
def Event.ResolvesOnce (st : Runtime) : Event → Prop
  | .resolve session _ =>
    ∃ context : ClientRequest, st.sessions[session]? = some context ∧ context.response = none
  | _ => True

/-- The states the client reaches when no session is resolved twice. -/
inductive ReachableOnce (jsonParse : String → Except JsError JsValue)
    (stringify : JsValue → String) (outbound : Outbound) : Runtime → Prop where
  | initial : ReachableOnce jsonParse stringify outbound Runtime.initial
  | next (st : Runtime) (event : Event) :
      ReachableOnce jsonParse stringify outbound st → event.ResolvesOnce st →
      ReachableOnce jsonParse stringify outbound (step jsonParse stringify outbound st event)

/-- Whether a regular expression matches a text: whether the expression,
as it is when created, finds a match in the text. -/
def RegExp.matches (re : RegExp) (text : String) : Bool :=
  (re.exec 0 text).isSome

/-- Whether the pattern of a subscription matches the type or the path of an
event, both given as strings. A subscription on a topic has no pattern. -/
def Watcher.accepts (watcher : Watcher) (type path : String) : Bool :=
  match watcher.eventName with
  | .pattern regex => regex.matches type || regex.matches path
  | _ => false

/-- The exact subscriptions registered under a topic string, in registration
order: the array `containerPrimary` holds under the topic, if any. -/
def Router.exactUnder (r : Router) (topic : String) : List Watcher :=
  match Fields.own r.containerPrimary topic with
  | some watchers => watchers
  | none => []

/-- The exact subscriptions registered under a topic, in registration order:
the array `containerPrimary` holds under the key of the topic, if any. -/
def Router.exact (r : Router) (topic : JsValue) : List Watcher :=
  match topic.toPropertyKey with
  | .ok key => r.exactUnder key
  | .error _ => []

/-- The pattern subscriptions that fire on an event: those whose test accepts
it when the tests are run in the order of the container, each from the
`lastIndex` the tests before it left; with the error of the first test that
raises, at which the tests end. -/
def Router.fired (type path : JsValue) :
    List Watcher → (Nat → Nat) → List Watcher × Option JsError
  | [], _ => ([], none)
  | watcher :: rest, lastIndex =>
    match watcher.test lastIndex type path with
    | (.error e, _) => ([], some e)
    | (.ok true, tested) => (watcher :: (Router.fired type path rest tested).1,
        (Router.fired type path rest tested).2)
    | (.ok false, tested) => Router.fired type path rest tested

/-- The subscriptions an event is dispatched to, in dispatch order, which are
the ones `update` calls when every action returns: the pattern subscriptions
that fire, then, unless a test raised, the subscriptions of `levelObject` when
it is an array of `containerPrimary`. None when `levelObject` cannot be
computed. -/
def Router.dispatched (r : Router) (type path : JsValue) : List Watcher :=
  match r.levelObject type path with
  | .error _ => []
  | .ok levelObject =>
    (Router.fired type path r.containerRegex r.lastIndex).1
      ++ (match (Router.fired type path r.containerRegex r.lastIndex).2, levelObject with
          | none, .own watchers => watchers
          | _, _ => [])

/-- The pattern container holds pattern subscriptions only, as `start` ensures. -/
def Router.RegexKept (r : Router) : Prop :=
  ∀ watcher ∈ r.containerRegex, ∃ regex : RegExp, watcher.eventName = .pattern regex

/-- The pattern container holds pattern subscriptions only, and none of their
regular expressions carries the flag `g` or `y`. -/
def Router.RegexPlain (r : Router) : Prop :=
  ∀ watcher ∈ r.containerRegex,
    ∃ regex : RegExp, watcher.eventName = .pattern regex ∧ regex.global = false

/-! ## Concrete data for the examples -/

/-- Text of a response carrying the number 0 as its identifier. -/
def zeroIdText : String := "\x7b\"id\":0,\"body\":\x7b\"type\":\"T\"\x7d\x7d"

/-- Text of a response whose identifier is the name of an inherited property. -/
def inheritedIdText : String := "\x7b\"id\":\"constructor\"\x7d"

/-- Text of the response to the first request of a client. -/
def pongText : String := "\x7b\"id\":\"0\",\"pong\":true\x7d"

/-- Text of an unsolicited message of type T. -/
def pushText : String := "\x7b\"body\":\x7b\"type\":\"T\"\x7d\x7d"

/-- The body of the messages of type T. -/
def topicBody : JsValue := .obj [("type", .str "T")]

/-- Text of a response whose identifier is an object with a property `toString`. -/
def unprintableIdText : String := "\x7b\"id\":\x7b\"toString\":1\x7d\x7d"

/-- The decoder of the examples. It agrees with `JSON.parse` on the texts
the examples decode: the texts listed, and the single opening brace, which is
not JSON. Every text that is not listed is answered with a SyntaxError. -/
def sampleParse (text : String) : Except JsError JsValue :=
  if text = "null" then .ok .null
  else if text = "5" then .ok (.num "5")
  else if text = zeroIdText then .ok (.obj [("id", .num "0"), ("body", topicBody)])
  else if text = inheritedIdText then .ok (.obj [("id", .str "constructor")])
  else if text = unprintableIdText then .ok (.obj [("id", .obj [("toString", .num "1")])])
  else if text = pongText then .ok (.obj [("id", .str "0"), ("pong", .bool true)])
  else if text = pushText then .ok (.obj [("body", topicBody)])
  else .error .syntaxError

/-- The serializer of the examples; the examples do not depend on the text it gives. -/
def sampleStringify (_ : JsValue) : String := "payload"

/-- The outbound functions of the examples. `isPlainObject` accepts an object
that has no own property `constructor` and nothing else, as the helper of the
library does on the values the examples give it. `send` takes strings, numbers
and arrays and raises a TypeError on `true`, `null` and an object, as the
`send` of the `ws` socket does on the values the examples hand to it. -/
def sampleOutbound : Outbound :=
  { isPlainObject := fun data =>
      match data with
      | .obj fields => .ok (Fields.own fields "constructor").isNone
      | _ => .ok false
    send := fun message =>
      match message with
      | .str _ => .ok ()
      | .num _ => .ok ()
      | .arr _ => .ok ()
      | _ => .error .typeError }

/-- An action that returns normally. -/
def quietAction (_ : JsValue) : Except JsError Unit := .ok ()

/-- An action that raises. -/
def failingAction (_ : JsValue) : Except JsError Unit := .error (.thrown "action failed")

/-- The client after its socket has opened. -/
def openedRuntime : Runtime :=
  run sampleParse sampleStringify sampleOutbound Runtime.initial [.opened .current]

/-- The opened client with one exact subscription on the topic T. -/
def subscribedRuntime : Runtime :=
  run sampleParse sampleStringify sampleOutbound Runtime.initial
    [.opened .current, .watch (.text "T") quietAction]

/-- The payload of a ping request. -/
def pingPayload : Fields JsValue := [("task", .str "open.ping")]

/-- The decoded response to the first request of a client. -/
def pongMessage : JsValue := .obj [("id", .str "0"), ("pong", .bool true)]

/-- The events of the double resolution example, up to the second `resolve`:
the socket opens, a request with a response handler is issued (session 0,
identifier "0"), its response arrives and the handler resolves the session, a
second request is issued (session 1), which reuses the identifier "0". -/
def reuseEvents : List Event :=
  [.opened .current, .request pingPayload (some 7), .message .current pongText,
   .resolve 0 pongMessage, .request pingPayload none]

/-- The client after the events of `reuseEvents`. -/
def reusedRuntime : Runtime := run sampleParse sampleStringify sampleOutbound Runtime.initial reuseEvents

/-- The regular expression `/^price/`, without flags. -/
def pricePattern : RegExp :=
  { object := 0
    global := false
    exec := fun start text =>
      if start = 0 ∧ List.isPrefixOf "price".toList text.toList then some 5 else none }

/-- The search of the letter T in a list of characters from the index `start`,
the list beginning at the index `position` of the text: the index after the
first T found. -/
def findT : List Char → Nat → Nat → Option Nat
  | [], _, _ => none
  | c :: rest, position, start =>
    if start ≤ position ∧ c = 'T' then some (position + 1) else findT rest (position + 1) start

/-- The regular expression `/T/g`. -/
def globalPattern : RegExp :=
  { object := 1, global := true, exec := fun start text => findT text.toList 0 start }

/-- A router with one pattern subscription, on `/T/g`. -/
def globalRouter : Router :=
  Router.initial.applyAll drop [.watch (.pattern globalPattern) quietAction]

/-- The body of an event whose type cannot be converted to a string and whose
path is `priceUpdate`. -/
def unprintableBody : JsValue :=
  .obj [("type", .obj [("toString", .num "1")]), ("path", .str "priceUpdate")]

/-- The decoded unsolicited message with the body `unprintableBody`. -/
def unprintableMessage : JsValue := .obj [("body", unprintableBody)]

/-- A payload with an own property `constructor`. -/
def constructorPayload : Fields JsValue := [("constructor", .str "x"), ("task", .str "t")]

/-- The body of a price update. -/
def priceBody : JsValue := .obj [("type", .str "priceUpdate"), ("path", .str "/nft/1")]

/-- A router with an exact subscription on `priceUpdate` (subscription 0),
registered first, and a pattern subscription on `/^price/` (subscription 1). -/
def priceRouter : Router :=
  (run sampleParse sampleStringify sampleOutbound Runtime.initial
    [.watch (.text "priceUpdate") quietAction, .watch (.pattern pricePattern) quietAction]).router

/-- The client after a `send` on its connecting socket, which started the
reconnection timer. -/
def reconnectingRuntime : Runtime :=
  run sampleParse sampleStringify sampleOutbound Runtime.initial [.send (.obj pingPayload)]

/-- The decoded unsolicited message of type T. -/
def pushMessage : JsValue := .obj [("body", topicBody)]

/-- The decoded price update. -/
def priceMessage : JsValue := .obj [("body", priceBody)]

/-- The exact subscription on `priceUpdate` of `priceRouter`. -/
def priceExact : Watcher :=
  { ref := 0, eventType := some .string, eventName := .text "priceUpdate",
    eventAction := quietAction }

/-- The pattern subscription of `priceRouter`. -/
def pricePatterned : Watcher :=
  { ref := 1, eventType := some .regex, eventName := .pattern pricePattern,
    eventAction := quietAction }

/-- The opened client with two exact subscriptions on the topic T: the action
of subscription 0 raises, the action of subscription 1 returns. -/
def failingRuntime : Runtime :=
  run sampleParse sampleStringify sampleOutbound Runtime.initial
    [.opened .current, .watch (.text "T") failingAction, .watch (.text "T") quietAction]

/-- Subscription 0 of `failingRuntime`. -/
def failingWatcher : Watcher :=
  { ref := 0, eventType := some .string, eventName := .text "T", eventAction := failingAction }

/-- Subscription 1 of `failingRuntime`. -/
def quietWatcher : Watcher :=
  { ref := 1, eventType := some .string, eventName := .text "T", eventAction := quietAction }

/-- The client after the double resolution example has gone on: session 0 is
resolved a second time, which frees the identifier "0" that session 1
carries, and a third request is issued (session 2). -/
def collidedRuntime : Runtime :=
  run sampleParse sampleStringify sampleOutbound Runtime.initial
    (reuseEvents ++ [.resolve 0 pongMessage, .request pingPayload none])

/-- The subscription with the given identity on the exact topic, as `watch`
returns it when it is given `quietAction`. -/
def topicWatcher (ref : Nat) (topic : String) : Watcher :=
  { ref := ref, eventType := some .string, eventName := .text topic, eventAction := quietAction }

/-- Two subscriptions are made on the topic T, then the first is stopped. -/
def stopFirstOps : List RouterOp :=
  [.watch (.text "T") quietAction, .watch (.text "T") quietAction, .stop (topicWatcher 0 "T")]

/-- Three subscriptions are made on the topic T, then the first is stopped,
then the second. -/
def stopTwoOps : List RouterOp :=
  [.watch (.text "T") quietAction, .watch (.text "T") quietAction,
   .watch (.text "T") quietAction, .stop (topicWatcher 0 "T"), .stop (topicWatcher 1 "T")]

/-- A subscription is made on the topic T and one on the topic `/p`, then the
one on T is stopped. -/
def stopTypeOps : List RouterOp :=
  [.watch (.text "T") quietAction, .watch (.text "/p") quietAction, .stop (topicWatcher 0 "T")]

/-- The body of an event of type T with the path `/p`. -/
def pathBody : JsValue := .obj [("type", .str "T"), ("path", .str "/p")]

/-- The decoded unsolicited message of type T with the path `/p`. -/
def pathMessage : JsValue := .obj [("body", pathBody)]

/-- The client after session 0 of the double resolution example has been
resolved a second time: session 1, issued on the open socket without a
response handler, is pending and carries "0", and the table holds `null`
under "0". -/
def resolvedAgainRuntime : Runtime :=
  run sampleParse sampleStringify sampleOutbound Runtime.initial
    (reuseEvents ++ [.resolve 0 pongMessage])

/-- The opened client after a request whose payload has an own property
`constructor`, issued without a response handler (session 0, identifier "0"). -/
def refusedRuntime : Runtime :=
  run sampleParse sampleStringify sampleOutbound Runtime.initial
    [.opened .current, .request constructorPayload none]

/-- The opened client after a ping request issued without a response handler
(session 0, identifier "0"). -/
def pingedRuntime : Runtime :=
  run sampleParse sampleStringify sampleOutbound Runtime.initial
    [.opened .current, .request pingPayload none]

/-! ## Properties -/

theorem Fields.own_assign {α : Type} (table : Fields α) (key other : String) (value : α) :
    Fields.own (Fields.assign table key value) other
      = if key = other then some value else Fields.own table other := by
  induction table with
  | nil =>
    by_cases h : key = other <;> simp [Fields.assign, Fields.own, h]
  | cons entry rest ih =>
    obtain ⟨k, v⟩ := entry
    by_cases hk : k = key <;> by_cases h : key = other <;> by_cases hko : k = other <;>
      simp_all [Fields.assign, Fields.own]

theorem ClientRequest.resolve_sessions_other (st : Runtime) (k j : Nat) (response : JsValue)
    (hj : j ≠ k) :
    (ClientRequest.resolve st k response).1.sessions[j]? = st.sessions[j]? := by
  unfold ClientRequest.resolve
  cases hk : st.sessions[k]? with
  | none => simp
  | some context =>
    simp only []
    rw [List.getElem?_set_ne (Ne.symm hj)]

theorem ClientRequest.resolve_router (st : Runtime) (k : Nat) (response : JsValue) :
    (ClientRequest.resolve st k response).1.router = st.router := by
  unfold ClientRequest.resolve
  cases st.sessions[k]? <;> rfl

theorem ClientRequest.received_sessions_other (st : Runtime) (k j : Nat) (response : JsValue)
    (hj : j ≠ k) :
    (ClientRequest.received st k response).1.sessions[j]? = st.sessions[j]? := by
  unfold ClientRequest.received
  cases hk : st.sessions[k]? with
  | none => rfl
  | some context =>
    cases hc : context.callback with
    | some _ => simp [hc]
    | none => simpa [hc] using ClientRequest.resolve_sessions_other st k j response hj

theorem ClientRequest.received_router (st : Runtime) (k : Nat) (response : JsValue) :
    (ClientRequest.received st k response).1.router = st.router := by
  unfold ClientRequest.received
  cases hk : st.sessions[k]? with
  | none => rfl
  | some context =>
    cases hc : context.callback with
    | some _ => simp [hc]
    | none => simpa [hc] using ClientRequest.resolve_router st k response

theorem ClientRequest.received_effects (st : Runtime) (k : Nat) (response : JsValue)
    (context : ClientRequest) (hk : st.sessions[k]? = some context) :
    (ClientRequest.received st k response).2
      = [match context.callback with
         | some _ => Effect.callback k response
         | none => Effect.accept k response] := by
  unfold ClientRequest.received
  rw [hk]
  cases hc : context.callback with
  | some _ => simp [hc]
  | none => simp [hc, ClientRequest.resolve, hk]

/-- C1, as amended. A decoded message other than `null` is delivered to at most
one place, decided by its `id` field. If the `id` is truthy, converts to a
property key, and the table holds session `k` under that key, the message goes
to that session alone (its handler is called, or it is resolved), no
subscription is invoked, nothing is raised, and the router and every other
session are as before. If the `id` is absent or falsy (such as 0 or the empty
string), the message is forwarded to `Watcher.update`, the calls made are
those of the dispatch, and the client, its table and its sessions are as
before; only the `lastIndex` of the regular expressions tested has moved. If
the `id` is truthy and converts to a key that has `null` or nothing in the
table and is not an inherited property name, nothing is invoked, nothing is
raised and the state is as before. -/
theorem ClientSocket.process_routes_to_one_place
    (jsonParse : String → Except JsError JsValue) (st : Runtime) (raw : String)
    (message id : JsValue)
    (hdecoded : jsonParse raw = .ok message) (hid : message.get "id" = .ok id) :
    (id.truthy = true →
      ∀ (key : String) (k : Nat) (context : ClientRequest),
        id.toPropertyKey = .ok key →
        st.client.requests.lookup key = .own (some k) →
        st.sessions[k]? = some context →
        (ClientSocket.process jsonParse st raw).2
            = { effects := [match context.callback with
                            | some _ => Effect.callback k message
                            | none => Effect.accept k message]
                raised := none
                rejected := none }
          ∧ (ClientSocket.process jsonParse st raw).1.router = st.router
          ∧ ∀ j : Nat, j ≠ k →
              (ClientSocket.process jsonParse st raw).1.sessions[j]? = st.sessions[j]?)
    ∧ (id.truthy = false →
        ClientSocket.process jsonParse st raw
          = ({ st with router := Watcher.updated st.router message },
              { effects := (Watcher.update st.router message).calls.map
                              (fun call => Effect.action call.1 call.2)
                raised := none
                rejected := (Watcher.update st.router message).failure }))
    ∧ (id.truthy = true →
        ∀ key : String, id.toPropertyKey = .ok key →
        (st.client.requests.lookup key = .own none
          ∨ st.client.requests.lookup key = .missing) →
        ClientSocket.process jsonParse st raw = (st, Outcome.quiet)) := by
  refine ⟨?_, ?_, ?_⟩
  · intro htruthy key k context hkey hlookup hsession
    have hproc : ClientSocket.process jsonParse st raw
        = ((ClientRequest.received st k message).1,
            { effects := (ClientRequest.received st k message).2
              raised := none, rejected := none }) := by
      simp [ClientSocket.process, hdecoded, hid, htruthy, hkey, hlookup]
    rw [hproc]
    refine ⟨?_, ?_, ?_⟩
    · simp [ClientRequest.received_effects st k message context hsession]
    · exact ClientRequest.received_router st k message
    · intro j hj
      exact ClientRequest.received_sessions_other st k j message hj
  · intro hfalsy
    simp [ClientSocket.process, hdecoded, hid, hfalsy, SoloNFT.update]
  · intro htruthy key hkey hnothing
    rcases hnothing with h | h <;>
      simp [ClientSocket.process, hdecoded, hid, htruthy, hkey, h]

/-- Witness of C1 as amended: an unsolicited message of type T, received by a
client with one subscription on T, is forwarded to the router, which invokes
that subscription; the client is unchanged. -/
theorem ClientSocket.process_routes_to_one_place_witness :
    sampleParse pushText = .ok (.obj [("body", topicBody)])
    ∧ ClientSocket.process sampleParse subscribedRuntime pushText
        = (subscribedRuntime,
            { effects := [.action 0 topicBody], raised := none, rejected := none }) :=
  ⟨rfl,
    (ClientSocket.process_routes_to_one_place sampleParse subscribedRuntime pushText
      (.obj [("body", topicBody)]) .undefined rfl rfl).2.1 rfl⟩

/-- C1 fails as stated, at three messages that carry a correlation identifier
under which no request is pending. The message with the identifier 0 and a
body of type T is forwarded to the router and the subscription on T is invoked
with its body. The message with the identifier "constructor" makes `process`
raise a TypeError, because the table answers with the value every plain
object inherits under that name. The message whose identifier is an object
with a property `toString` makes `process` raise a TypeError, because the
identifier cannot be converted to a property key. -/
theorem ClientSocket.process_unmatched_id_counterexample :
    sampleParse zeroIdText = .ok (.obj [("id", .num "0"), ("body", topicBody)])
    ∧ Fields.own subscribedRuntime.client.requests "0" = none
    ∧ (ClientSocket.process sampleParse subscribedRuntime zeroIdText).2.effects
        = [.action 0 topicBody]
    ∧ sampleParse inheritedIdText = .ok (.obj [("id", .str "constructor")])
    ∧ Fields.own subscribedRuntime.client.requests "constructor" = none
    ∧ (ClientSocket.process sampleParse subscribedRuntime inheritedIdText).2.raised
        = some .typeError
    ∧ sampleParse unprintableIdText = .ok (.obj [("id", .obj [("toString", .num "1")])])
    ∧ subscribedRuntime.client.requests = []
    ∧ (ClientSocket.process sampleParse subscribedRuntime unprintableIdText).2.raised
        = some .typeError :=
  ⟨rfl, rfl, rfl, rfl, rfl, rfl, rfl, rfl, rfl⟩

/-! ### Numerals -/

theorem digitChar_value (m : Nat) (h : m < 10) : (Nat.digitChar m).toNat - 48 = m := by
  interval_cases m <;> rfl

theorem toDigitsCore_value (fuel : Nat) : ∀ (n : Nat) (ds : List Char), n < fuel →
    List.foldl (fun acc c => 10 * acc + (c.toNat - 48)) 0 (Nat.toDigitsCore 10 fuel n ds)
      = List.foldl (fun acc c => 10 * acc + (c.toNat - 48)) n ds := by
  induction fuel with
  | zero => intro n ds h; omega
  | succ fuel ih =>
    intro n ds h
    simp only [Nat.toDigitsCore]
    split_ifs with h0
    · have hn : n % 10 = n := by omega
      have hd := digitChar_value (n % 10) (Nat.mod_lt _ (by decide))
      rw [hn] at hd
      simp [List.foldl, hn, hd]
    · rw [ih (n / 10) _ (by omega)]
      simp only [List.foldl, digitChar_value (n % 10) (Nat.mod_lt _ (by decide))]
      congr 1
      omega

theorem toDigitsCore_ne_nil (fuel n : Nat) (ds : List Char) :
    Nat.toDigitsCore 10 (fuel + 1) n ds ≠ [] := by
  induction fuel generalizing n ds with
  | zero => simp [Nat.toDigitsCore]
  | succ fuel ih =>
    rw [Nat.toDigitsCore]
    split_ifs
    · simp
    · exact ih _ _

theorem natToString_injective (a b : Nat) (h : toString a = toString b) : a = b := by
  have h1 : Nat.toDigits 10 a = Nat.toDigits 10 b := by
    have : (Nat.toDigits 10 a).asString = (Nat.toDigits 10 b).asString := h
    exact congrArg String.data this
  have ha := toDigitsCore_value (a + 1) a [] (by omega)
  have hb := toDigitsCore_value (b + 1) b [] (by omega)
  simp only [List.foldl] at ha hb
  rw [← ha, ← hb]
  unfold Nat.toDigits at h1
  rw [h1]

theorem natToString_ne_empty (n : Nat) : toString n ≠ "" := by
  intro h
  have h1 : (Nat.toDigits 10 n).asString = "" := h
  have h2 : Nat.toDigits 10 n = [] := congrArg String.data h1
  exact toDigitsCore_ne_nil n n [] h2

/-! ### The allocator -/

theorem Uid.uid_issued (u : Uid) (h : ∀ id ∈ u.released, u.Issued id) :
    (u.uid).2.Issued (u.uid).1 := by
  unfold Uid.uid
  cases hr : u.released with
  | nil => exact ⟨u.count, by simp, rfl⟩
  | cons id rest =>
    have := h id (by simp [hr])
    simpa [Uid.Issued] using this

theorem Uid.Issued.truthy {u : Uid} {id : String} (h : u.Issued id) :
    (JsValue.str id).truthy = true := by
  obtain ⟨n, _, rfl⟩ := h
  simp [JsValue.truthy, natToString_ne_empty]

theorem Uid.uid_truthy (u : Uid) (h : ∀ id ∈ u.released, u.Issued id) :
    (JsValue.str (u.uid).1).truthy = true :=
  (Uid.uid_issued u h).truthy

/-! ### Sending and reconnecting -/

theorem Fields.lookup_assign {α : Type} (table : Fields α) (key : String) (value : α) :
    Fields.lookup (Fields.assign table key value) key = .own value := by
  simp [Fields.lookup, Fields.own_assign]

theorem ClientSocket.reconnect_active (st : Runtime) (hkept : st.TimerKept) :
    ∃ handle : Nat, (ClientSocket.reconnect st).client.connectInterval = some handle
      ∧ (ClientSocket.reconnect st).timers = [handle] := by
  unfold Runtime.TimerKept at hkept
  unfold ClientSocket.reconnect
  cases hc : st.client.connectInterval with
  | some handle => exact ⟨handle, by simp [hc], by simp [hkept, hc]⟩
  | none => exact ⟨st.nextTimer, by simp, by simp [hkept, hc]⟩

theorem ClientSocket.send_closed (stringify : JsValue → String) (outbound : Outbound)
    (st : Runtime) (data : JsValue) (hclosed : st.client.socket.readyState ≠ 1) :
    ClientSocket.send stringify outbound st data = (ClientSocket.reconnect st, .ok false, []) := by
  simp [ClientSocket.send, hclosed]

theorem ClientSocket.handOver_eq (outbound : Outbound) (st : Runtime) (message : JsValue) :
    ClientSocket.handOver outbound st message
      = (st,
          (match outbound.send message with
            | .ok _ => Except.ok true
            | .error e => Except.error e),
          [.socketSend message]) := by
  unfold ClientSocket.handOver
  cases outbound.send message <;> rfl

theorem ClientSocket.send_open (stringify : JsValue → String) (outbound : Outbound)
    (st : Runtime) (data : JsValue) (hopen : st.client.socket.readyState = 1) :
    ClientSocket.send stringify outbound st data
      = match outbound.isPlainObject data with
        | .error e => (st, .error e, [])
        | .ok plain =>
          (st,
            (match outbound.send (if plain then .str (stringify data) else data) with
              | .ok _ => Except.ok true
              | .error e => Except.error e),
            [.socketSend (if plain then .str (stringify data) else data)]) := by
  unfold ClientSocket.send
  rw [if_pos hopen]
  cases outbound.isPlainObject data with
  | error e => rfl
  | ok plain => cases plain <;> simp [ClientSocket.handOver_eq]

theorem ClientSocket.send_state_open (stringify : JsValue → String) (outbound : Outbound)
    (st : Runtime) (data : JsValue) (hopen : st.client.socket.readyState = 1) :
    (ClientSocket.send stringify outbound st data).1 = st := by
  rw [ClientSocket.send_open stringify outbound st data hopen]
  cases outbound.isPlainObject data <;> rfl

/-- C3, as amended. `send` returns `false` exactly when the `readyState` of the
socket is not 1 (open). In that case nothing is handed to the transport and
afterwards `connectInterval` holds a timer, which is the one active interval
timer. When the socket is open, `send` changes nothing, and it does not always
hand over and return `true`: if `isPlainObject` raises, `send` raises that
error and hands nothing over; otherwise it hands the transport one message,
the serialization of the payload if `isPlainObject` accepts it and the payload
itself if it does not, and returns `true` if the socket takes the message and
raises the error of the socket if it does not. -/
theorem ClientSocket.send_fails_exactly_when_not_open (stringify : JsValue → String)
    (outbound : Outbound) (st : Runtime) (data : JsValue) (hkept : st.TimerKept) :
    ((ClientSocket.send stringify outbound st data).2.1 = .ok false
        ↔ st.client.socket.readyState ≠ 1)
    ∧ (st.client.socket.readyState ≠ 1 →
        (ClientSocket.send stringify outbound st data).2.2 = []
        ∧ ∃ handle : Nat,
            (ClientSocket.send stringify outbound st data).1.client.connectInterval = some handle
            ∧ (ClientSocket.send stringify outbound st data).1.timers = [handle])
    ∧ (st.client.socket.readyState = 1 →
        (ClientSocket.send stringify outbound st data).1 = st
        ∧ (∀ e : JsError, outbound.isPlainObject data = .error e →
            (ClientSocket.send stringify outbound st data).2 = (.error e, []))
        ∧ (∀ plain : Bool, outbound.isPlainObject data = .ok plain →
            (ClientSocket.send stringify outbound st data).2.2
              = [.socketSend (if plain then .str (stringify data) else data)]
            ∧ (outbound.send (if plain then .str (stringify data) else data) = .ok () →
                (ClientSocket.send stringify outbound st data).2.1 = .ok true)
            ∧ (∀ e : JsError,
                outbound.send (if plain then .str (stringify data) else data) = .error e →
                (ClientSocket.send stringify outbound st data).2.1 = .error e))) := by
  by_cases hopen : st.client.socket.readyState = 1
  · rw [ClientSocket.send_open stringify outbound st data hopen]
    refine ⟨?_, fun h => absurd hopen h, fun _ => ⟨?_, ?_, ?_⟩⟩
    · cases outbound.isPlainObject data with
      | error e => simp [hopen]
      | ok plain =>
        simp only [hopen, ne_eq, not_true_eq_false, iff_false]
        split <;> simp
    · cases outbound.isPlainObject data <;> rfl
    · intro e he
      rw [he]
    · intro plain hplain
      rw [hplain]
      refine ⟨rfl, ?_, ?_⟩
      · intro hsend
        simp [hsend]
      · intro e hsend
        simp [hsend]
  · rw [ClientSocket.send_closed stringify outbound st data hopen]
    exact ⟨by simp [hopen], fun _ => ⟨rfl, ClientSocket.reconnect_active st hkept⟩,
      fun h => absurd h hopen⟩

theorem initial_timerKept : Runtime.initial.TimerKept := rfl

/-- Witness of C3 as amended: on a client whose socket is still connecting,
`send` returns `false`, hands nothing to the transport and starts timer 1. -/
theorem ClientSocket.send_fails_exactly_when_not_open_witness :
    Runtime.initial.client.socket.readyState = 0
    ∧ (ClientSocket.send sampleStringify sampleOutbound Runtime.initial (.obj pingPayload)).2.1
        = .ok false
    ∧ (ClientSocket.send sampleStringify sampleOutbound Runtime.initial (.obj pingPayload)).2.2 = []
    ∧ (ClientSocket.send sampleStringify sampleOutbound Runtime.initial (.obj pingPayload)).1.timers
        = [1] :=
  ⟨rfl,
    (ClientSocket.send_fails_exactly_when_not_open sampleStringify sampleOutbound Runtime.initial
      (.obj pingPayload) initial_timerKept).1.2 (by decide),
    ((ClientSocket.send_fails_exactly_when_not_open sampleStringify sampleOutbound
      Runtime.initial (.obj pingPayload) initial_timerKept).2.1 (by decide)).1,
    rfl⟩

/-- C3 fails as stated. On the client whose socket is open, `send(true)` hands
`true` to the socket, which raises a TypeError, so `send` raises and returns
nothing; and `send` of an object with an own property `constructor`, which
`isPlainObject` does not accept, hands the object itself to the socket,
which raises the same way. The socket being open, `send` still did not return
`true`. -/
theorem ClientSocket.send_open_raises_counterexample :
    openedRuntime.client.socket.readyState = 1
    ∧ (ClientSocket.send sampleStringify sampleOutbound openedRuntime (.bool true)).2
        = (.error .typeError, [.socketSend (.bool true)])
    ∧ sampleOutbound.isPlainObject (.obj constructorPayload) = .ok false
    ∧ (ClientSocket.send sampleStringify sampleOutbound openedRuntime (.obj constructorPayload)).2
        = (.error .typeError, [.socketSend (.obj constructorPayload)])
    ∧ (ClientSocket.send sampleStringify sampleOutbound openedRuntime (.obj pingPayload)).2
        = (.ok true, [.socketSend (.str (sampleStringify (.obj pingPayload)))]) :=
  ⟨rfl, rfl, rfl, rfl, rfl⟩

theorem ClientSocket.request_closed (stringify : JsValue → String) (outbound : Outbound)
    (st : Runtime) (payload : Fields JsValue) (callback : Option Nat)
    (hclosed : st.client.socket.readyState ≠ 1) :
    ClientSocket.request stringify outbound st payload callback
      = (ClientSocket.reconnect (ClientRequest.new st payload callback).1,
          st.sessions.length, []) := by
  have hsession : (ClientRequest.new st payload callback).1.sessions[
      (ClientRequest.new st payload callback).2]?
        = some { id := (st.uid.uid).1
                 payload := Fields.assign payload "id" (.str (st.uid.uid).1)
                 callback := callback
                 response := none } := by
    simp [ClientRequest.new]
  have hsocket : (ClientRequest.new st payload callback).1.client.socket.readyState ≠ 1 := by
    simpa [ClientRequest.new] using hclosed
  simp only [ClientSocket.request, ClientRequest.send, hsession,
    ClientSocket.send_closed stringify outbound _ _ hsocket]
  rfl

theorem ClientSocket.reconnect_sessions (st : Runtime) :
    (ClientSocket.reconnect st).sessions = st.sessions
    ∧ (ClientSocket.reconnect st).client.requests = st.client.requests
    ∧ (ClientSocket.reconnect st).uid = st.uid
    ∧ (ClientSocket.reconnect st).router = st.router := by
  unfold ClientSocket.reconnect
  cases st.client.connectInterval <;> simp

/-- C4, as amended. A request issued while the socket is not open hands
nothing to the transport and leaves a reconnection timer active; the value
`send` returned is dropped, so the eventual response stays pending and the
session stays registered in the table under its identifier. -/
theorem ClientSocket.request_while_closed_stays_pending (stringify : JsValue → String)
    (outbound : Outbound) (st : Runtime) (payload : Fields JsValue) (callback : Option Nat)
    (hkept : st.TimerKept) (hclosed : st.client.socket.readyState ≠ 1) :
    (ClientSocket.request stringify outbound st payload callback).2.2 = []
    ∧ (∃ handle : Nat,
        (ClientSocket.request stringify outbound st payload callback).1.client.connectInterval
          = some handle
        ∧ (ClientSocket.request stringify outbound st payload callback).1.timers = [handle])
    ∧ (ClientSocket.request stringify outbound st payload callback).1.sessions[
          (ClientSocket.request stringify outbound st payload callback).2.1]?
        = some { id := (st.uid.uid).1
                 payload := Fields.assign payload "id" (.str (st.uid.uid).1)
                 callback := callback
                 response := none }
    ∧ (ClientSocket.request stringify outbound st payload callback).1.client.requests.lookup
          (st.uid.uid).1
        = .own (some (ClientSocket.request stringify outbound st payload callback).2.1) := by
  rw [ClientSocket.request_closed stringify outbound st payload callback hclosed]
  have hkept1 : (ClientRequest.new st payload callback).1.TimerKept := by
    simpa [Runtime.TimerKept, ClientRequest.new] using hkept
  obtain ⟨hs, hr, _, _⟩ := ClientSocket.reconnect_sessions (ClientRequest.new st payload callback).1
  refine ⟨rfl, ClientSocket.reconnect_active _ hkept1, ?_, ?_⟩
  · show (ClientSocket.reconnect (ClientRequest.new st payload callback).1).sessions[
        st.sessions.length]? = _
    rw [hs]
    simp [ClientRequest.new]
  · show (ClientSocket.reconnect (ClientRequest.new st payload callback).1).client.requests.lookup
        _ = _
    rw [hr]
    simp [ClientRequest.new, Fields.lookup_assign]

/-- Witness of C4 as amended, on the client whose socket is still connecting. -/
theorem ClientSocket.request_while_closed_stays_pending_witness :
    Runtime.initial.client.socket.readyState = 0
    ∧ (ClientSocket.request sampleStringify sampleOutbound Runtime.initial pingPayload none).2.2
        = []
    ∧ (ClientSocket.request sampleStringify sampleOutbound Runtime.initial pingPayload
          none).1.client.requests.lookup "0"
        = .own (some 0) :=
  ⟨rfl,
    (ClientSocket.request_while_closed_stays_pending sampleStringify sampleOutbound
      Runtime.initial pingPayload none initial_timerKept (by decide)).1,
    (ClientSocket.request_while_closed_stays_pending sampleStringify sampleOutbound
      Runtime.initial pingPayload none initial_timerKept (by decide)).2.2.2⟩

/-- C4 fails as stated. A request issued while the socket of the client is
still connecting (not open) is registered in the table under its identifier
"0" and its eventual response stays pending: the caller observes no failure. -/
theorem ClientSocket.request_while_closed_counterexample :
    Runtime.initial.client.socket.readyState = 0
    ∧ (ClientSocket.request sampleStringify sampleOutbound Runtime.initial pingPayload none).2.1
        = 0
    ∧ ((ClientSocket.request sampleStringify sampleOutbound Runtime.initial pingPayload
          none).1.sessions[0]?).map
          (fun context => (context.id, context.response))
        = some ("0", none)
    ∧ (ClientSocket.request sampleStringify sampleOutbound Runtime.initial pingPayload
          none).1.client.requests.lookup "0"
        = .own (some 0) :=
  ⟨rfl, rfl, rfl, rfl⟩

/-! ### Malformed messages -/

/-- C5, as amended. For a raw text that does not decode to a plain object,
`process` invokes no subscription, resolves no request and leaves the whole
state unchanged, so a following message is processed as usual. It returns
normally when the text decodes to a number, a string, a boolean or an array;
it raises the error of the decoder when the text fails to decode, and a
TypeError when the text decodes to `null` (or `undefined`). -/
theorem ClientSocket.process_malformed_leaves_state
    (jsonParse : String → Except JsError JsValue) (st : Runtime) (raw : String)
    (hmalformed : ∀ fields : List (String × JsValue), jsonParse raw ≠ .ok (.obj fields)) :
    (ClientSocket.process jsonParse st raw).1 = st
    ∧ (ClientSocket.process jsonParse st raw).2.effects = []
    ∧ (ClientSocket.process jsonParse st raw).2.rejected = none
    ∧ (ClientSocket.process jsonParse st raw).2.raised
        = (match jsonParse raw with
          | .error e => some e
          | .ok .null => some .typeError
          | .ok .undefined => some .typeError
          | .ok _ => none) := by
  cases hparse : jsonParse raw with
  | error e => simp [ClientSocket.process, hparse]
  | ok value =>
    cases value with
    | obj fields => exact absurd hparse (hmalformed fields)
    | undefined => simp [ClientSocket.process, hparse, JsValue.get]
    | null => simp [ClientSocket.process, hparse, JsValue.get]
    | bool b =>
      simp [ClientSocket.process, hparse, JsValue.get, JsValue.truthy, SoloNFT.update,
        Watcher.update, Watcher.updated, Watcher.dispatch]
    | num n =>
      simp [ClientSocket.process, hparse, JsValue.get, JsValue.truthy, SoloNFT.update,
        Watcher.update, Watcher.updated, Watcher.dispatch]
    | str s =>
      simp [ClientSocket.process, hparse, JsValue.get, JsValue.truthy, SoloNFT.update,
        Watcher.update, Watcher.updated, Watcher.dispatch]
    | arr items =>
      simp [ClientSocket.process, hparse, JsValue.get, JsValue.truthy, SoloNFT.update,
        Watcher.update, Watcher.updated, Watcher.dispatch]

/-- Witness of C5 as amended: the text `5` decodes to a number; `process`
returns normally and leaves the subscribed client as it was. -/
theorem ClientSocket.process_malformed_leaves_state_witness :
    sampleParse "5" = .ok (.num "5")
    ∧ (ClientSocket.process sampleParse subscribedRuntime "5").1 = subscribedRuntime
    ∧ (ClientSocket.process sampleParse subscribedRuntime "5").2.raised = none :=
  ⟨rfl,
    (ClientSocket.process_malformed_leaves_state sampleParse subscribedRuntime "5"
      (fun _ h => by cases h)).1,
    rfl⟩

/-- C5 fails as stated: `process` raises on the text `null`, which decodes to
`null` (a TypeError from reading `id`), and on a text that is not JSON (the
SyntaxError of the decoder). -/
theorem ClientSocket.process_malformed_counterexample :
    sampleParse "null" = .ok .null
    ∧ (ClientSocket.process sampleParse subscribedRuntime "null").2.raised = some .typeError
    ∧ sampleParse "\x7b" = .error .syntaxError
    ∧ (ClientSocket.process sampleParse subscribedRuntime "\x7b").2.raised
        = some .syntaxError :=
  ⟨rfl, rfl, rfl, rfl⟩

/-! ### Resolving twice -/

theorem Fields.own_assign_other {α : Type} (table : Fields α) (key other : String) (value : α)
    (h : key ≠ other) :
    Fields.own (Fields.assign table key value) other = Fields.own table other := by
  simp [Fields.own_assign, h]

/-- C6, as amended. Calling `resolve` on a session whose eventual response is
already completed does not raise and leaves every session, the completed
response included, unchanged, as well as the table entries of other
identifiers; but it writes `null` again under the identifier of the session,
whatever the table held there, and hands the identifier to the allocator
once more. -/
theorem ClientRequest.resolve_again (st : Runtime) (k : Nat) (context : ClientRequest)
    (first response : JsValue)
    (hsession : st.sessions[k]? = some context) (hresolved : context.response = some first) :
    (ClientRequest.resolve st k response).1.sessions = st.sessions
    ∧ (ClientRequest.resolve st k response).2 = [.accept k response]
    ∧ (ClientRequest.resolve st k response).1.client.requests.lookup context.id = .own none
    ∧ (∀ key : String, key ≠ context.id →
        Fields.own (ClientRequest.resolve st k response).1.client.requests key
          = Fields.own st.client.requests key)
    ∧ (ClientRequest.resolve st k response).1.uid.released
        = st.uid.released ++ [context.id]
    ∧ (ClientRequest.resolve st k response).1.uid.count = st.uid.count := by
  have hset : st.sessions.set k context = st.sessions := by
    apply List.ext_getElem?
    intro i
    by_cases hi : k = i
    · subst hi
      rw [List.getElem?_set_self (by
        rcases List.getElem?_eq_some_iff.mp hsession with ⟨h, _⟩
        exact h)]
      exact hsession.symm
    · rw [List.getElem?_set_ne hi]
  refine ⟨?_, ?_, ?_, ?_, ?_, ?_⟩
  · simp [ClientRequest.resolve, hsession, hresolved, hset]
  · simp [ClientRequest.resolve, hsession]
  · simp [ClientRequest.resolve, hsession, Fields.lookup_assign]
  · intro key hkey
    simp [ClientRequest.resolve, hsession, Fields.own_assign_other _ _ _ _ (Ne.symm hkey)]
  · simp [ClientRequest.resolve, hsession, Uid.free]
  · simp [ClientRequest.resolve, hsession, Uid.free]

/-- Witness of C6 as amended: the second resolution of session 0 in the
double resolution example. -/
theorem ClientRequest.resolve_again_witness :
    (reusedRuntime.sessions[0]?).map (fun context => (context.id, context.response))
        = some ("0", some pongMessage)
    ∧ (ClientRequest.resolve reusedRuntime 0 pongMessage).1.sessions = reusedRuntime.sessions
    ∧ (ClientRequest.resolve reusedRuntime 0 pongMessage).1.client.requests.lookup "0"
        = .own none :=
  ⟨rfl,
    (ClientRequest.resolve_again reusedRuntime 0
      { id := "0", payload := Fields.assign pingPayload "id" (.str "0"), callback := some 7,
        response := some pongMessage }
      pongMessage pongMessage rfl rfl).1,
    (ClientRequest.resolve_again reusedRuntime 0
      { id := "0", payload := Fields.assign pingPayload "id" (.str "0"), callback := some 7,
        response := some pongMessage }
      pongMessage pongMessage rfl rfl).2.2.1⟩

/-- C6 fails as stated. Session 0 was resolved and its identifier "0" was
reused by session 1, which is pending and registered under "0"; the allocator
holds no free identifier. Resolving session 0 again replaces the table entry
of session 1 by `null` and makes "0" free while session 1 still carries it. -/
theorem ClientRequest.resolve_again_counterexample :
    (reusedRuntime.sessions[0]?).map (fun context => (context.id, context.response))
        = some ("0", some pongMessage)
    ∧ (reusedRuntime.sessions[1]?).map (fun context => (context.id, context.response))
        = some ("0", none)
    ∧ reusedRuntime.client.requests.lookup "0" = .own (some 1)
    ∧ reusedRuntime.uid.released = []
    ∧ (ClientRequest.resolve reusedRuntime 0 pongMessage).1.client.requests.lookup "0"
        = .own none
    ∧ (ClientRequest.resolve reusedRuntime 0 pongMessage).1.uid.released = ["0"] :=
  ⟨rfl, rfl, rfl, rfl, rfl, rfl⟩

/-! ### The reconnection timer -/

theorem ClientSocket.reconnect_timerKept (st : Runtime) (hkept : st.TimerKept) :
    (ClientSocket.reconnect st).TimerKept := by
  obtain ⟨handle, hc, ht⟩ := ClientSocket.reconnect_active st hkept
  simp [Runtime.TimerKept, hc, ht]

theorem ClientSocket.onclose_timerKept (st : Runtime) (hkept : st.TimerKept) :
    (ClientSocket.onclose st).TimerKept := by
  unfold ClientSocket.onclose
  cases hc : st.client.connectInterval with
  | some handle => simpa [hc] using hkept
  | none =>
    apply ClientSocket.reconnect_timerKept
    simpa [Runtime.TimerKept] using hkept

theorem ClientSocket.onopen_timerKept (st : Runtime) (hkept : st.TimerKept) :
    (ClientSocket.onopen st).TimerKept := by
  unfold Runtime.TimerKept at hkept
  unfold ClientSocket.onopen
  cases hc : st.client.connectInterval with
  | some handle => simp [Runtime.TimerKept, hkept, hc]
  | none => simp [Runtime.TimerKept, hkept, hc]

theorem Runtime.setReadyState_timerKept (st : Runtime) (ref : SocketRef) (readyState : Nat)
    (hkept : st.TimerKept) : (st.setReadyState ref readyState).TimerKept := by
  cases ref <;> simpa [Runtime.setReadyState, Runtime.TimerKept] using hkept

theorem ClientRequest.resolve_timerKept (st : Runtime) (k : Nat) (response : JsValue)
    (hkept : st.TimerKept) : (ClientRequest.resolve st k response).1.TimerKept := by
  unfold ClientRequest.resolve
  cases st.sessions[k]? <;> simpa [Runtime.TimerKept] using hkept

theorem ClientRequest.received_timerKept (st : Runtime) (k : Nat) (response : JsValue)
    (hkept : st.TimerKept) : (ClientRequest.received st k response).1.TimerKept := by
  unfold ClientRequest.received
  cases hk : st.sessions[k]? with
  | none => simpa using hkept
  | some context =>
    cases hc : context.callback with
    | some _ => simpa [hc] using hkept
    | none => simpa [hc] using ClientRequest.resolve_timerKept st k response hkept

theorem ClientSocket.process_state (jsonParse : String → Except JsError JsValue)
    (st : Runtime) (raw : String) :
    (ClientSocket.process jsonParse st raw).1 = st
    ∨ (∃ message : JsValue, (ClientSocket.process jsonParse st raw).1
        = { st with router := Watcher.updated st.router message })
    ∨ ∃ (k : Nat) (message : JsValue),
        (ClientSocket.process jsonParse st raw).1 = (ClientRequest.received st k message).1 := by
  unfold ClientSocket.process
  split
  · exact Or.inl rfl
  · split
    · exact Or.inl rfl
    · split
      · exact Or.inr (Or.inl ⟨_, rfl⟩)
      · split
        · exact Or.inl rfl
        · split
          · exact Or.inr (Or.inr ⟨_, _, rfl⟩)
          all_goals exact Or.inl rfl

theorem ClientSocket.process_timerKept (jsonParse : String → Except JsError JsValue)
    (st : Runtime) (raw : String) (hkept : st.TimerKept) :
    (ClientSocket.process jsonParse st raw).1.TimerKept := by
  rcases ClientSocket.process_state jsonParse st raw with h | ⟨message, h⟩ | ⟨k, message, h⟩
  · rw [h]; exact hkept
  · rw [h]; exact hkept
  · rw [h]; exact ClientRequest.received_timerKept st k message hkept

theorem ClientSocket.send_timerKept (stringify : JsValue → String) (outbound : Outbound)
    (st : Runtime) (data : JsValue) (hkept : st.TimerKept) :
    (ClientSocket.send stringify outbound st data).1.TimerKept := by
  by_cases hopen : st.client.socket.readyState = 1
  · rw [ClientSocket.send_state_open stringify outbound st data hopen]
    exact hkept
  · rw [ClientSocket.send_closed stringify outbound st data hopen]
    exact ClientSocket.reconnect_timerKept st hkept

theorem ClientRequest.send_keeps_timer (stringify : JsValue → String) (outbound : Outbound)
    (st : Runtime) (k : Nat) (hkept : st.TimerKept) :
    (ClientRequest.send stringify outbound st k).1.TimerKept := by
  unfold ClientRequest.send
  cases st.sessions[k]? with
  | none => exact hkept
  | some context =>
    have hsent := ClientSocket.send_timerKept stringify outbound st (.obj context.payload) hkept
    simp only []
    split
    · exact hsent
    · simpa [Runtime.TimerKept] using hsent

theorem ClientSocket.request_timerKept (stringify : JsValue → String) (outbound : Outbound)
    (st : Runtime) (payload : Fields JsValue) (callback : Option Nat) (hkept : st.TimerKept) :
    (ClientSocket.request stringify outbound st payload callback).1.TimerKept := by
  have hnew : (ClientRequest.new st payload callback).1.TimerKept := by
    simpa [Runtime.TimerKept, ClientRequest.new] using hkept
  exact ClientRequest.send_keeps_timer stringify outbound _ _ hnew

theorem step_timerKept (jsonParse : String → Except JsError JsValue)
    (stringify : JsValue → String) (outbound : Outbound) (st : Runtime) (event : Event)
    (hkept : st.TimerKept) : (step jsonParse stringify outbound st event).TimerKept := by
  cases event with
  | connect => simpa [step, ClientSocket.connect, Runtime.TimerKept] using hkept
  | reconnect => exact ClientSocket.reconnect_timerKept st hkept
  | send data => exact ClientSocket.send_timerKept stringify outbound st data hkept
  | request payload callback =>
    exact ClientSocket.request_timerKept stringify outbound st payload callback hkept
  | resolve session response => exact ClientRequest.resolve_timerKept st session response hkept
  | timer handle =>
    simp only [step]
    split_ifs
    · simpa [ClientSocket.connect, Runtime.TimerKept] using hkept
    · exact hkept
  | opened ref =>
    simp only [step]
    cases st.socketAt ref with
    | none => exact hkept
    | some socket =>
      simp only []
      split_ifs
      · exact ClientSocket.onopen_timerKept _ (Runtime.setReadyState_timerKept st ref 1 hkept)
      · exact Runtime.setReadyState_timerKept st ref 1 hkept
      · exact hkept
  | closed ref =>
    simp only [step]
    cases st.socketAt ref with
    | none => exact hkept
    | some socket =>
      simp only []
      split_ifs
      · exact hkept
      · exact ClientSocket.onclose_timerKept _ (Runtime.setReadyState_timerKept st ref 3 hkept)
      · exact Runtime.setReadyState_timerKept st ref 3 hkept
  | errored ref =>
    simp only [step]
    cases st.socketAt ref with
    | none => exact hkept
    | some socket =>
      simp only []
      split_ifs
      · exact ClientSocket.onclose_timerKept st hkept
      · exact hkept
  | message ref data =>
    simp only [step]
    cases st.socketAt ref with
    | none => exact hkept
    | some socket =>
      simp only []
      split_ifs
      · exact ClientSocket.process_timerKept jsonParse st data hkept
      · exact hkept
  | watch eventName eventAction =>
    simp only [step]
    cases watch st.router eventName eventAction with
    | error e => exact hkept
    | ok created => simpa [Runtime.TimerKept] using hkept

theorem run_timerKept (jsonParse : String → Except JsError JsValue)
    (stringify : JsValue → String) (outbound : Outbound) (events : List Event) :
    ∀ st : Runtime, st.TimerKept → (run jsonParse stringify outbound st events).TimerKept := by
  induction events with
  | nil => intro st h; exact h
  | cons event rest ih =>
    intro st h
    exact ih _ (step_timerKept jsonParse stringify outbound st event h)

/-- C8. In every state the client reaches from its construction through
calls of `connect`, `reconnect`, `send` and `request`, the firing of the
timer and the events of its sockets, the active interval timers are the one
kept in `connectInterval` and no other, so at most one reconnection timer is
active; and `reconnect`, called while a timer is active, returns the state
unchanged: no second timer, the same socket with the same handlers, the same
connection status. -/
theorem ClientSocket.reconnect_timer_unique (jsonParse : String → Except JsError JsValue)
    (stringify : JsValue → String) (outbound : Outbound) (st : Runtime)
    (hreach : Reachable jsonParse stringify outbound st) :
    st.timers = st.client.connectInterval.toList
    ∧ st.timers.length ≤ 1
    ∧ (st.timers ≠ [] → ClientSocket.reconnect st = st) := by
  obtain ⟨events, rfl⟩ := hreach
  have hkept := run_timerKept jsonParse stringify outbound events Runtime.initial initial_timerKept
  unfold Runtime.TimerKept at hkept
  refine ⟨hkept, ?_, ?_⟩
  · rw [hkept]
    cases (run jsonParse stringify outbound Runtime.initial events).client.connectInterval <;> simp
  · intro hactive
    rw [hkept] at hactive
    unfold ClientSocket.reconnect
    cases hc : (run jsonParse stringify outbound Runtime.initial events).client.connectInterval with
    | none => simp [hc] at hactive
    | some handle => rfl

/-! ### Dispatch -/

theorem eachAsync_cons {α σ : Type} (x : α) (rest : List α)
    (iteratee : α → σ → Dispatch × σ) (state : σ) :
    eachAsync (x :: rest) iteratee state
      = match (iteratee x state).1.failure with
        | some e =>
          ({ calls := (iteratee x state).1.calls, failure := some e }, (iteratee x state).2)
        | none =>
          ({ calls := (iteratee x state).1.calls
                ++ (eachAsync rest iteratee (iteratee x state).2).1.calls
             failure := (eachAsync rest iteratee (iteratee x state).2).1.failure },
            (eachAsync rest iteratee (iteratee x state).2).2) := rfl

theorem Watcher.invokeAll_nil (body : JsValue) :
    Watcher.invokeAll [] body = { calls := [], failure := none } := rfl

theorem Watcher.invokeAll_cons (w : Watcher) (rest : List Watcher) (body : JsValue) :
    Watcher.invokeAll (w :: rest) body
      = match (w.invoke body).failure with
        | some e => { calls := (w.invoke body).calls, failure := some e }
        | none =>
          { calls := (w.invoke body).calls ++ (Watcher.invokeAll rest body).calls
            failure := (Watcher.invokeAll rest body).failure } := by
  unfold Watcher.invokeAll
  rw [eachAsync_cons]
  cases (w.invoke body).failure <;> rfl

theorem Watcher.invokeAll_append (first second : List Watcher) (body : JsValue) :
    Watcher.invokeAll (first ++ second) body
      = match (Watcher.invokeAll first body).failure with
        | some e => { calls := (Watcher.invokeAll first body).calls, failure := some e }
        | none =>
          { calls := (Watcher.invokeAll first body).calls ++ (Watcher.invokeAll second body).calls
            failure := (Watcher.invokeAll second body).failure } := by
  induction first with
  | nil => simp [Watcher.invokeAll_nil]
  | cons x rest ih =>
    rw [List.cons_append, Watcher.invokeAll_cons, Watcher.invokeAll_cons, ih]
    cases hx : (x.invoke body).failure with
    | some e => simp
    | none =>
      cases hrest : (Watcher.invokeAll rest body).failure with
      | some e => simp
      | none => simp

theorem Watcher.invokeAll_returning (watchers : List Watcher) (body : JsValue)
    (hreturn : ∀ watcher ∈ watchers, watcher.eventAction body = .ok ()) :
    Watcher.invokeAll watchers body
      = { calls := watchers.map (fun watcher => (watcher.ref, body)), failure := none } := by
  induction watchers with
  | nil => simp [Watcher.invokeAll_nil]
  | cons w rest ih =>
    have ih1 := ih (fun x hx => hreturn x (List.mem_cons_of_mem _ hx))
    have hw := hreturn w (List.mem_cons_self _ _)
    rw [Watcher.invokeAll_cons, ih1]
    simp [Watcher.invoke, hw]

theorem Watcher.invokeAll_raising (before after : List Watcher) (w : Watcher) (body : JsValue)
    (e : JsError)
    (hreturn : ∀ watcher ∈ before, watcher.eventAction body = .ok ())
    (hraise : w.eventAction body = .error e) :
    Watcher.invokeAll (before ++ w :: after) body
      = { calls := (before ++ [w]).map (fun watcher => (watcher.ref, body))
          failure := some e } := by
  rw [Watcher.invokeAll_append, Watcher.invokeAll_returning before body hreturn,
    Watcher.invokeAll_cons]
  simp [Watcher.invoke, hraise]

theorem eachAsync_regex_fired (type path body : JsValue) (watchers : List Watcher) :
    ∀ lastIndex : Nat → Nat,
      (eachAsync watchers (Watcher.updateRegex type path body) lastIndex).1
        = match (Watcher.invokeAll (Router.fired type path watchers lastIndex).1 body).failure with
          | some e =>
            { calls := (Watcher.invokeAll (Router.fired type path watchers lastIndex).1 body).calls
              failure := some e }
          | none =>
            { calls := (Watcher.invokeAll (Router.fired type path watchers lastIndex).1 body).calls
              failure := (Router.fired type path watchers lastIndex).2 } := by
  induction watchers with
  | nil => intro lastIndex; rfl
  | cons w rest ih =>
    intro lastIndex
    rw [eachAsync_cons]
    rcases htest : w.test lastIndex type path with ⟨result, tested⟩
    cases result with
    | error e =>
      simp [Watcher.updateRegex, Router.fired, htest, Watcher.invokeAll_nil]
    | ok accepted =>
      cases accepted with
      | false =>
        simp only [Watcher.updateRegex, Router.fired, htest, List.nil_append]
        exact ih tested
      | true =>
        simp only [Watcher.updateRegex, Router.fired, htest, Watcher.invokeAll_cons]
        cases hw : (w.invoke body).failure with
        | some e => rfl
        | none =>
          simp only [ih tested]
          cases (Watcher.invokeAll (Router.fired type path rest tested).1 body).failure <;> rfl

theorem Watcher.dispatch_unfold (r : Router) (message body type path : JsValue)
    (levelObject : Lookup (List Watcher))
    (hstatus : r.status = true) (hbody : message.get "body" = .ok body)
    (htruthy : body.truthy = true)
    (htype : body.get "type" = .ok type) (hpath : body.get "path" = .ok path)
    (hlevel : r.levelObject type path = .ok levelObject) :
    Watcher.dispatch r message
      = match (eachAsync r.containerRegex (Watcher.updateRegex type path body)
                r.lastIndex).1.failure with
        | some e =>
          ({ calls := (eachAsync r.containerRegex (Watcher.updateRegex type path body)
                r.lastIndex).1.calls
             failure := some e },
            (eachAsync r.containerRegex (Watcher.updateRegex type path body) r.lastIndex).2)
        | none =>
          ({ calls := (eachAsync r.containerRegex (Watcher.updateRegex type path body)
                r.lastIndex).1.calls ++ (Watcher.updateLevel levelObject body).calls
             failure := (Watcher.updateLevel levelObject body).failure },
            (eachAsync r.containerRegex (Watcher.updateRegex type path body) r.lastIndex).2) := by
  simp only [Watcher.dispatch, hbody, hstatus, htruthy, htype, hpath, hlevel]
  simp

theorem RegExp.test_without_flag (regex : RegExp) (lastIndex : Nat → Nat) (text : String)
    (hflag : regex.global = false) :
    regex.test lastIndex text = ((regex.exec 0 text).isSome, lastIndex) := by
  simp [RegExp.test, hflag]

theorem Watcher.test_plain (w : Watcher) (regex : RegExp) (lastIndex : Nat → Nat)
    (type path : JsValue) (hname : w.eventName = .pattern regex) (hflag : regex.global = false) :
    (w.test lastIndex type path).2 = lastIndex := by
  unfold Watcher.test
  rw [hname]
  simp only [RegExp.test_without_flag regex _ _ hflag]
  cases type.toPropertyKey with
  | error e => rfl
  | ok typeText =>
    dsimp only
    split
    · rfl
    · cases path.toPropertyKey <;> rfl

theorem Watcher.test_accepts (w : Watcher) (regex : RegExp) (lastIndex : Nat → Nat)
    (type path : JsValue) (typeText pathText : String)
    (hname : w.eventName = .pattern regex) (hflag : regex.global = false)
    (htype : type.toPropertyKey = .ok typeText) (hpath : path.toPropertyKey = .ok pathText) :
    w.test lastIndex type path = (.ok (w.accepts typeText pathText), lastIndex) := by
  unfold Watcher.test Watcher.accepts
  rw [hname]
  simp only [RegExp.test_without_flag regex _ _ hflag, RegExp.matches, htype, hpath]
  cases (regex.exec 0 typeText).isSome <;> simp

theorem Router.fired_plain (type path : JsValue) (typeText pathText : String)
    (htype : type.toPropertyKey = .ok typeText) (hpath : path.toPropertyKey = .ok pathText)
    (watchers : List Watcher) (lastIndex : Nat → Nat)
    (hplain : ∀ watcher ∈ watchers,
      ∃ regex : RegExp, watcher.eventName = .pattern regex ∧ regex.global = false) :
    Router.fired type path watchers lastIndex
      = (watchers.filter (fun watcher => watcher.accepts typeText pathText), none) := by
  induction watchers with
  | nil => rfl
  | cons w rest ih =>
    have ih1 := ih (fun x hx => hplain x (List.mem_cons_of_mem _ hx))
    obtain ⟨regex, hname, hflag⟩ := hplain w (List.mem_cons_self _ _)
    have htest := Watcher.test_accepts w regex lastIndex type path typeText pathText hname hflag
      htype hpath
    cases haccept : w.accepts typeText pathText with
    | true =>
      rw [haccept] at htest
      simp [Router.fired, htest, ih1, haccept]
    | false =>
      rw [haccept] at htest
      simp [Router.fired, htest, ih1, haccept]

theorem eachAsync_regex_lastIndex (type path body : JsValue) (watchers : List Watcher)
    (lastIndex : Nat → Nat)
    (hplain : ∀ watcher ∈ watchers,
      ∃ regex : RegExp, watcher.eventName = .pattern regex ∧ regex.global = false) :
    (eachAsync watchers (Watcher.updateRegex type path body) lastIndex).2 = lastIndex := by
  induction watchers with
  | nil => rfl
  | cons w rest ih =>
    have ih1 := ih (fun x hx => hplain x (List.mem_cons_of_mem _ hx))
    obtain ⟨regex, hname, hflag⟩ := hplain w (List.mem_cons_self _ _)
    have htest := Watcher.test_plain w regex lastIndex type path hname hflag
    have hstate : (Watcher.updateRegex type path body w lastIndex).2 = lastIndex := by
      unfold Watcher.updateRegex
      rcases hresult : w.test lastIndex type path with ⟨result, tested⟩
      rw [hresult] at htest
      cases result with
      | error e => exact htest
      | ok accepted => cases accepted <;> exact htest
    rw [eachAsync_cons, hstate]
    cases (Watcher.updateRegex type path body w lastIndex).1.failure with
    | some e => rfl
    | none => exact ih1

theorem Watcher.updated_plain (r : Router) (message : JsValue) (hplain : r.RegexPlain) :
    Watcher.updated r message = r := by
  have hstate : (Watcher.dispatch r message).2 = r.lastIndex := by
    unfold Watcher.dispatch
    split
    · rfl
    · split
      · rfl
      · split
        · split
          · rfl
          · have h := fun (type path body : JsValue) =>
              eachAsync_regex_lastIndex type path body r.containerRegex r.lastIndex hplain
            simp only []
            split <;> exact h _ _ _
        · rfl
        · rfl
  unfold Watcher.updated
  rw [hstate]

theorem Router.exactUnder_of_missing (r : Router) (topic : String)
    (h : r.containerPrimary.lookup topic = .missing) : r.exactUnder topic = [] := by
  unfold Fields.lookup at h
  unfold Router.exactUnder
  cases hown : Fields.own r.containerPrimary topic with
  | none => rfl
  | some watchers => simp [hown] at h

theorem Watcher.updateLevel_calls (r : Router) (topic : String) (body : JsValue)
    (hreturn : ∀ watcher ∈ r.exactUnder topic, watcher.eventAction body = .ok ()) :
    (Watcher.updateLevel (r.containerPrimary.lookup topic) body).calls
      = (r.exactUnder topic).map (fun watcher => (watcher.ref, body)) := by
  unfold Router.exactUnder at hreturn ⊢
  unfold Fields.lookup
  cases hown : Fields.own r.containerPrimary topic with
  | some watchers =>
    rw [hown] at hreturn
    simp [Watcher.updateLevel, Watcher.invokeAll_returning watchers body hreturn]
  | none =>
    cases Fields.own objectPrototype topic with
    | none => simp [Watcher.updateLevel]
    | some len =>
      cases len with
      | none => simp [Watcher.updateLevel]
      | some n => cases n <;> simp [Watcher.updateLevel]

/-- C9, as amended. When the router is enabled, an unsolicited message has a
truthy body whose type and path convert to strings, no pattern subscription
carries the flag `g` or `y`, and the actions invoked return normally,
`Watcher.update` calls, each once and with the body: first the pattern
subscriptions whose pattern matches the type or the path of the body, in the
order of the pattern container (registration order); then the exact
subscriptions registered under the type, in registration order; and, only
when nothing at all is kept under the type, those registered under the path.
So a matching pattern subscription is called before an exact subscription
registered on the type. The dispatch leaves the router as it was. -/
theorem Watcher.update_dispatch_order (r : Router) (message body type path : JsValue)
    (typeText pathText : String)
    (hstatus : r.status = true) (hbody : message.get "body" = .ok body)
    (htruthy : body.truthy = true)
    (htype : body.get "type" = .ok type) (hpath : body.get "path" = .ok path)
    (htypeText : type.toPropertyKey = .ok typeText)
    (hpathText : path.toPropertyKey = .ok pathText)
    (hplain : r.RegexPlain)
    (hreturn : ∀ watcher ∈
        r.containerRegex.filter (fun watcher => watcher.accepts typeText pathText)
          ++ r.exactUnder typeText
          ++ (match r.containerPrimary.lookup typeText with
              | .missing => r.exactUnder pathText
              | _ => []),
        watcher.eventAction body = .ok ()) :
    (Watcher.update r message).calls
      = (r.containerRegex.filter (fun watcher => watcher.accepts typeText pathText)).map
            (fun watcher => (watcher.ref, body))
          ++ (r.exactUnder typeText).map (fun watcher => (watcher.ref, body))
          ++ (match r.containerPrimary.lookup typeText with
              | .missing => (r.exactUnder pathText).map (fun watcher => (watcher.ref, body))
              | _ => [])
    ∧ (∀ pattern ∈ r.containerRegex, pattern.accepts typeText pathText = true →
        ∀ exact ∈ r.exactUnder typeText,
          [(pattern.ref, body), (exact.ref, body)].Sublist (Watcher.update r message).calls)
    ∧ Watcher.updated r message = r := by
  have hfirst := Watcher.invokeAll_returning
    (r.containerRegex.filter (fun watcher => watcher.accepts typeText pathText)) body
    (fun watcher hw => hreturn watcher (List.mem_append_left _ (List.mem_append_left _ hw)))
  have hlevel : r.levelObject type path
      = .ok (match r.containerPrimary.lookup typeText with
          | .missing => r.containerPrimary.lookup pathText
          | found => found) := by
    unfold Router.levelObject
    simp only [htypeText, hpathText]
    cases r.containerPrimary.lookup typeText <;> rfl
  have hsecond : (Watcher.updateLevel
        (match r.containerPrimary.lookup typeText with
          | .missing => r.containerPrimary.lookup pathText
          | found => found) body).calls
      = (r.exactUnder typeText).map (fun watcher => (watcher.ref, body))
          ++ (match r.containerPrimary.lookup typeText with
              | .missing => (r.exactUnder pathText).map (fun watcher => (watcher.ref, body))
              | _ => []) := by
    have hunder := Watcher.updateLevel_calls r typeText body
      (fun watcher hw => hreturn watcher (List.mem_append_left _ (List.mem_append_right _ hw)))
    cases hfound : r.containerPrimary.lookup typeText with
    | missing =>
      rw [hfound] at hreturn
      simp only [Router.exactUnder_of_missing r typeText hfound, List.map_nil, List.nil_append]
      exact Watcher.updateLevel_calls r pathText body
        (fun watcher hw => hreturn watcher (List.mem_append_right _ hw))
    | own watchers =>
      rw [hfound] at hunder
      simpa using hunder
    | inherited len =>
      rw [hfound] at hunder
      simpa using hunder
  have hcalls : (Watcher.update r message).calls
      = (r.containerRegex.filter (fun watcher => watcher.accepts typeText pathText)).map
            (fun watcher => (watcher.ref, body))
          ++ (r.exactUnder typeText).map (fun watcher => (watcher.ref, body))
          ++ (match r.containerPrimary.lookup typeText with
              | .missing => (r.exactUnder pathText).map (fun watcher => (watcher.ref, body))
              | _ => []) := by
    unfold Watcher.update
    rw [Watcher.dispatch_unfold r message body type path _ hstatus hbody htruthy htype hpath
      hlevel, eachAsync_regex_fired,
      Router.fired_plain type path typeText pathText htypeText hpathText r.containerRegex
        r.lastIndex hplain, hfirst]
    simp only [hsecond, List.append_assoc]
  refine ⟨hcalls, ?_, Watcher.updated_plain r message hplain⟩
  intro pattern hpattern hmatch exact hexact
  rw [hcalls]
  have h1 : [(pattern.ref, body)].Sublist
      ((r.containerRegex.filter (fun watcher => watcher.accepts typeText pathText)).map
        (fun watcher => (watcher.ref, body))) := by
    rw [List.singleton_sublist]
    exact List.mem_map.mpr ⟨pattern, List.mem_filter.mpr ⟨hpattern, hmatch⟩, rfl⟩
  have h2 : [(exact.ref, body)].Sublist
      ((r.exactUnder typeText).map (fun watcher => (watcher.ref, body))) := by
    rw [List.singleton_sublist]
    exact List.mem_map.mpr ⟨exact, hexact, rfl⟩
  have h3 := (h1.append h2).trans (List.sublist_append_left _
    (match r.containerPrimary.lookup typeText with
      | .missing => (r.exactUnder pathText).map (fun watcher => (watcher.ref, body))
      | _ => []))
  simpa using h3

/-- Witness of C9 as amended: a price update is dispatched first to the
pattern subscription (subscription 1), although it was registered last, then
to the exact subscription on its type (subscription 0). -/
theorem Watcher.update_dispatch_order_witness :
    priceRouter.containerRegex.map (fun watcher => watcher.ref) = [1]
    ∧ (priceRouter.exactUnder "priceUpdate").map (fun watcher => watcher.ref) = [0]
    ∧ (Watcher.update priceRouter priceMessage).calls = [(1, priceBody), (0, priceBody)] :=
  ⟨rfl, rfl,
    (Watcher.update_dispatch_order priceRouter priceMessage priceBody (.str "priceUpdate")
      (.str "/nft/1") "priceUpdate" "/nft/1" rfl rfl rfl rfl rfl rfl rfl
      (fun watcher hw => by
        have hw1 : watcher ∈ [pricePatterned] := hw
        rw [List.mem_singleton] at hw1
        exact ⟨pricePattern, by rw [hw1]; rfl, rfl⟩)
      (fun watcher hw => by
        have hw1 : watcher ∈ [pricePatterned, priceExact] := hw
        simp only [List.mem_cons, List.mem_singleton, List.not_mem_nil, or_false] at hw1
        rcases hw1 with h | h <;> rw [h] <;> rfl)).1⟩

/-- C9 fails as stated. (1) Two exact subscriptions are registered on the
topic T and the action of the first raises: an event of type T calls the
first only. (2) The one pattern subscription of a router is on `/T/g`, which
matches the type T: the first event of type T calls it and leaves the
`lastIndex` of the expression at 1, so the next event of type T, which the
pattern matches as well, calls nothing. (3) A pattern subscription on
`/^price/` matches the path `priceUpdate` of an event whose type is an object
with a property `toString`: the type cannot be converted to a property key,
the dispatch fails with a TypeError and calls nothing. -/
theorem Watcher.update_dispatch_order_counterexample :
    (failingRuntime.router.exactUnder "T").map (fun watcher => watcher.ref) = [0, 1]
    ∧ (Watcher.update failingRuntime.router pushMessage).calls = [(0, topicBody)]
    ∧ globalRouter.status = true
    ∧ globalRouter.containerRegex.map (fun watcher => (watcher.ref, watcher.accepts "T" "undefined"))
        = [(0, true)]
    ∧ (Watcher.update globalRouter pushMessage).calls = [(0, topicBody)]
    ∧ (Watcher.updated globalRouter pushMessage).lastIndex globalPattern.object = 1
    ∧ (Watcher.update (Watcher.updated globalRouter pushMessage) pushMessage).calls = []
    ∧ (Watcher.update (Watcher.updated globalRouter pushMessage) pushMessage).failure = none
    ∧ priceRouter.containerRegex.map
          (fun watcher => (watcher.ref, watcher.accepts "[object Object]" "priceUpdate"))
        = [(1, true)]
    ∧ unprintableMessage.get "body" = .ok unprintableBody
    ∧ (Watcher.update priceRouter unprintableMessage).calls = []
    ∧ (Watcher.update priceRouter unprintableMessage).failure = some .typeError :=
  ⟨rfl, rfl, rfl, rfl, rfl, rfl, rfl, rfl, rfl, rfl, rfl, rfl⟩

/-- Witness of C8: after a failed `send` one timer is active, and `reconnect`
leaves the client as it is. -/
theorem ClientSocket.reconnect_timer_unique_witness :
    reconnectingRuntime.timers = [1]
    ∧ ClientSocket.reconnect reconnectingRuntime = reconnectingRuntime :=
  ⟨rfl,
    (ClientSocket.reconnect_timer_unique sampleParse sampleStringify sampleOutbound
      reconnectingRuntime ⟨[.send (.obj pingPayload)], rfl⟩).2.2 (by decide)⟩

/-- C10, as amended. When the action of a subscription an event is dispatched
to raises, the subscriptions before it in dispatch order have been called,
the raising one is the last call, no subscription after it is called, and
the dispatch fails with the error raised. `process` does not raise it to the
handler of the transport: the error is the failure of the eventual result
`process` returns. The state is unchanged but for the `lastIndex` of the
regular expressions tested, and unchanged altogether when no pattern
subscription carries the flag `g` or `y`. -/
theorem Watcher.update_stops_at_raising_action
    (jsonParse : String → Except JsError JsValue) (st : Runtime) (raw : String)
    (message id body type path : JsValue) (before after : List Watcher) (w : Watcher)
    (e : JsError)
    (hdecoded : jsonParse raw = .ok message) (hid : message.get "id" = .ok id)
    (hfalsy : id.truthy = false)
    (hstatus : st.router.status = true) (hbody : message.get "body" = .ok body)
    (htruthy : body.truthy = true)
    (htype : body.get "type" = .ok type) (hpath : body.get "path" = .ok path)
    (hsplit : st.router.dispatched type path = before ++ w :: after)
    (hreturn : ∀ watcher ∈ before, watcher.eventAction body = .ok ())
    (hraise : w.eventAction body = .error e) :
    Watcher.update st.router message
        = { calls := (before ++ [w]).map (fun watcher => (watcher.ref, body))
            failure := some e }
    ∧ ClientSocket.process jsonParse st raw
        = ({ st with router := Watcher.updated st.router message },
            { effects := (before ++ [w]).map (fun watcher => Effect.action watcher.ref body)
              raised := none
              rejected := some e })
    ∧ (st.router.RegexPlain → Watcher.updated st.router message = st.router) := by
  have hupdate : Watcher.update st.router message
      = { calls := (before ++ [w]).map (fun watcher => (watcher.ref, body))
          failure := some e } := by
    have hall := Watcher.invokeAll_raising before after w body e hreturn hraise
    rw [← hsplit] at hall
    unfold Router.dispatched at hsplit hall
    cases hlevel : st.router.levelObject type path with
    | error e1 => simp [hlevel] at hsplit
    | ok levelObject =>
      simp only [hlevel] at hall
      rw [Watcher.invokeAll_append] at hall
      unfold Watcher.update
      rw [Watcher.dispatch_unfold st.router message body type path levelObject hstatus hbody
        htruthy htype hpath hlevel, eachAsync_regex_fired]
      cases hfirst : (Watcher.invokeAll
          (Router.fired type path st.router.containerRegex st.router.lastIndex).1 body).failure with
      | some e1 =>
        simp only [hfirst] at hall ⊢
        exact hall
      | none =>
        simp only [hfirst] at hall ⊢
        cases hfired : (Router.fired type path st.router.containerRegex st.router.lastIndex).2 with
        | some e1 => simp [hfired, Watcher.invokeAll_nil] at hall
        | none =>
          simp only [hfired] at hall ⊢
          cases levelObject with
          | own watchers => simpa [Watcher.updateLevel] using hall
          | inherited len => simp [Watcher.invokeAll_nil] at hall
          | missing => simp [Watcher.invokeAll_nil] at hall
  refine ⟨hupdate, ?_, Watcher.updated_plain st.router message⟩
  simp [ClientSocket.process, hdecoded, hid, hfalsy, SoloNFT.update, hupdate]

/-- Witness of C10 as amended: with a raising subscription registered on T
before a returning one, the dispatch of a message of type T calls the first
only and fails with its error. -/
theorem Watcher.update_stops_at_raising_action_witness :
    failingRuntime.router.dispatched (.str "T") .undefined = [failingWatcher, quietWatcher]
    ∧ ClientSocket.process sampleParse failingRuntime pushText
        = (failingRuntime,
            { effects := [.action 0 topicBody], raised := none,
              rejected := some (.thrown "action failed") }) :=
  ⟨rfl,
    (Watcher.update_stops_at_raising_action sampleParse failingRuntime pushText pushMessage
      .undefined topicBody (.str "T") .undefined [] [quietWatcher] failingWatcher
      (.thrown "action failed") rfl rfl rfl rfl rfl rfl rfl rfl
      rfl (fun watcher hw => (List.not_mem_nil watcher hw).elim) rfl).2.1⟩

/-- C10 fails as stated. Two exact subscriptions are registered on the topic
T; the action of the first raises. The dispatch of a message of type T calls
the first subscription only: the second, which matches the same event, is
never invoked, and the dispatch fails with the error raised. -/
theorem Watcher.update_failure_counterexample :
    (failingRuntime.router.exact (.str "T")).map (fun watcher => watcher.ref) = [0, 1]
    ∧ sampleParse pushText = .ok pushMessage
    ∧ (Watcher.update failingRuntime.router pushMessage).calls = [(0, topicBody)]
    ∧ (Watcher.update failingRuntime.router pushMessage).failure
        = some (.thrown "action failed")
    ∧ (ClientSocket.process sampleParse failingRuntime pushText).2.effects
        = [.action 0 topicBody] :=
  ⟨rfl, rfl, rfl, rfl, rfl⟩

/-! ### Identifier uniqueness -/

theorem Uid.Issued.mono {u v : Uid} {id : String} (h : u.Issued id) (hcount : u.count ≤ v.count) :
    v.Issued id := by
  obtain ⟨n, hn, rfl⟩ := h
  exact ⟨n, by omega, rfl⟩

theorem Uid.uid_count (u : Uid) : u.count ≤ (u.uid).2.count := by
  unfold Uid.uid
  cases u.released <;> simp

theorem Uid.uid_released_subset (u : Uid) : ∀ id ∈ (u.uid).2.released, id ∈ u.released := by
  unfold Uid.uid
  cases hr : u.released with
  | nil => simp
  | cons head rest => intro id hid; simpa using Or.inr hid

theorem Uid.uid_fresh (u : Uid) (hnodup : u.released.Nodup) :
    (u.uid).1 ∉ (u.uid).2.released
    ∧ ∀ id : String, u.Issued id → id ∉ u.released → id ≠ (u.uid).1 := by
  unfold Uid.uid
  cases hr : u.released with
  | nil =>
    refine ⟨by simp, ?_⟩
    rintro id ⟨n, hn, rfl⟩ _ heq
    have := natToString_injective _ _ heq
    simp at this
    omega
  | cons head rest =>
    rw [hr] at hnodup
    refine ⟨by simpa using (List.nodup_cons.mp hnodup).1, ?_⟩
    intro id _ hfree heq
    apply hfree
    simp [heq]

theorem Correlated.new {sessions : List ClientRequest} {requests : Fields (Option Nat)}
    {u : Uid} (h : Correlated sessions requests u) (payload : Fields JsValue)
    (callback : Option Nat) :
    Correlated
      (sessions ++ [{ id := (u.uid).1, payload := payload, callback := callback,
                      response := none }])
      (Fields.assign requests (u.uid).1 (some sessions.length)) (u.uid).2 := by
  obtain ⟨hfresh, hother⟩ := Uid.uid_fresh u h.released_nodup
  have hsession : ∀ (k : Nat) (c : ClientRequest),
      (sessions ++ [{ id := (u.uid).1, payload := payload, callback := callback,
                      response := none }])[k]? = some c →
      sessions[k]? = some c
      ∨ (k = sessions.length
          ∧ c = { id := (u.uid).1, payload := payload, callback := callback,
                  response := none }) := by
    intro k c hk
    rcases Nat.lt_trichotomy k sessions.length with hlt | heq | hgt
    · left
      rwa [List.getElem?_append_left hlt] at hk
    · right
      subst heq
      simp at hk
      exact ⟨rfl, hk.symm⟩
    · rw [List.getElem?_eq_none (by simp; omega)] at hk
      cases hk
  refine ⟨?_, ?_, ?_, ?_, ?_⟩
  · intro id hid
    exact (h.released_issued id (Uid.uid_released_subset u id hid)).mono (Uid.uid_count u)
  · intro k c hk
    rcases hsession k c hk with hold | ⟨_, rfl⟩
    · exact (h.sessions_issued k c hold).mono (Uid.uid_count u)
    · exact Uid.uid_issued u h.released_issued
  · unfold Uid.uid
    cases hr : u.released with
    | nil => simp
    | cons head rest =>
      have := h.released_nodup
      rw [hr] at this
      simpa using (List.nodup_cons.mp this).2
  · intro k c hk hpending
    rcases hsession k c hk with hold | ⟨rfl, rfl⟩
    · obtain ⟨hfree, hown⟩ := h.pending_registered k c hold hpending
      have hne := hother c.id (h.sessions_issued k c hold) hfree
      refine ⟨fun hmem => hfree (Uid.uid_released_subset u _ hmem), ?_⟩
      rw [Fields.own_assign_other _ _ _ _ (Ne.symm hne)]
      exact hown
    · exact ⟨hfresh, by simp [Fields.own_assign]⟩
  · intro id k hown
    rw [Fields.own_assign] at hown
    by_cases hid : (u.uid).1 = id
    · simp only [hid, if_true, Option.some.injEq] at hown
      subst hown
      exact ⟨{ id := (u.uid).1, payload := payload, callback := callback, response := none },
        by simp, rfl, hid⟩
    · simp only [hid, if_false] at hown
      obtain ⟨c, hc, hpending, hcid⟩ := h.registered_pending id k hown
      refine ⟨c, ?_, hpending, hcid⟩
      have hlt : k < sessions.length := (List.getElem?_eq_some_iff.mp hc).1
      rw [List.getElem?_append_left hlt]
      exact hc

theorem Correlated.resolve {sessions : List ClientRequest} {requests : Fields (Option Nat)}
    {u : Uid} (h : Correlated sessions requests u) (k : Nat) (c : ClientRequest)
    (response : JsValue) (hk : sessions[k]? = some c) (hpending : c.response = none) :
    Correlated (sessions.set k { c with response := some response })
      (Fields.assign requests c.id none) (u.free c.id) := by
  have hlt : k < sessions.length := (List.getElem?_eq_some_iff.mp hk).1
  have hsession : ∀ (j : Nat) (cj : ClientRequest),
      (sessions.set k { c with response := some response })[j]? = some cj →
      (j ≠ k ∧ sessions[j]? = some cj)
      ∨ (j = k ∧ cj = { c with response := some response }) := by
    intro j cj hj
    by_cases hjk : k = j
    · subst hjk
      rw [List.getElem?_set_self hlt] at hj
      exact Or.inr ⟨rfl, (Option.some.inj hj).symm⟩
    · rw [List.getElem?_set_ne hjk] at hj
      exact Or.inl ⟨Ne.symm hjk, hj⟩
  obtain ⟨hfree, hown⟩ := h.pending_registered k c hk hpending
  refine ⟨?_, ?_, ?_, ?_, ?_⟩
  · intro id hid
    simp only [Uid.free, List.mem_append, List.mem_singleton] at hid
    rcases hid with hid | rfl
    · exact h.released_issued id hid
    · exact h.sessions_issued k c hk
  · intro j cj hj
    rcases hsession j cj hj with ⟨_, hold⟩ | ⟨_, rfl⟩
    · exact h.sessions_issued j cj hold
    · exact h.sessions_issued k c hk
  · simp only [Uid.free]
    rw [List.nodup_append]
    refine ⟨h.released_nodup, by simp, ?_⟩
    intro a ha hb
    simp only [List.mem_singleton] at hb
    subst hb
    exact hfree ha
  · intro j cj hj hjpending
    rcases hsession j cj hj with ⟨hne, hold⟩ | ⟨_, rfl⟩
    · obtain ⟨hjfree, hjown⟩ := h.pending_registered j cj hold hjpending
      have hid : c.id ≠ cj.id := by
        intro heq
        rw [← heq, hown] at hjown
        simp only [Option.some.injEq] at hjown
        exact hne hjown.symm
      refine ⟨?_, ?_⟩
      · simp only [Uid.free, List.mem_append, List.mem_singleton, not_or]
        exact ⟨hjfree, Ne.symm hid⟩
      · rw [Fields.own_assign_other _ _ _ _ hid]
        exact hjown
    · simp at hjpending
  · intro id j hjown
    rw [Fields.own_assign] at hjown
    by_cases hid : c.id = id
    · simp [hid] at hjown
    · simp only [hid, if_false] at hjown
      obtain ⟨cj, hcj, hjpending, hcjid⟩ := h.registered_pending id j hjown
      have hne : k ≠ j := by
        intro heq
        subst heq
        rw [hk] at hcj
        cases hcj
        exact hid hcjid
      exact ⟨cj, by rw [List.getElem?_set_ne hne]; exact hcj, hjpending, hcjid⟩

theorem Runtime.Correlated.frame {st next : Runtime} (h : st.Correlated)
    (hframe : next.sessions = st.sessions ∧ next.client.requests = st.client.requests
      ∧ next.uid = st.uid) : next.Correlated := by
  unfold Runtime.Correlated at h ⊢
  rw [hframe.1, hframe.2.1, hframe.2.2]
  exact h

theorem ClientSocket.reconnect_frame (st : Runtime) :
    (ClientSocket.reconnect st).sessions = st.sessions
    ∧ (ClientSocket.reconnect st).client.requests = st.client.requests
    ∧ (ClientSocket.reconnect st).uid = st.uid := by
  obtain ⟨h1, h2, h3, _⟩ := ClientSocket.reconnect_sessions st
  exact ⟨h1, h2, h3⟩

theorem ClientSocket.onclose_frame (st : Runtime) :
    (ClientSocket.onclose st).sessions = st.sessions
    ∧ (ClientSocket.onclose st).client.requests = st.client.requests
    ∧ (ClientSocket.onclose st).uid = st.uid := by
  unfold ClientSocket.onclose
  cases st.client.connectInterval with
  | some handle => exact ⟨rfl, rfl, rfl⟩
  | none =>
    obtain ⟨h1, h2, h3⟩ := ClientSocket.reconnect_frame
      { st with client := { st.client with connectionStatus := "closed", status := 0 } }
    exact ⟨h1, h2, h3⟩

theorem ClientSocket.onopen_frame (st : Runtime) :
    (ClientSocket.onopen st).sessions = st.sessions
    ∧ (ClientSocket.onopen st).client.requests = st.client.requests
    ∧ (ClientSocket.onopen st).uid = st.uid := by
  unfold ClientSocket.onopen
  cases st.client.connectInterval <;> exact ⟨rfl, rfl, rfl⟩

theorem Runtime.setReadyState_frame (st : Runtime) (ref : SocketRef) (readyState : Nat) :
    (st.setReadyState ref readyState).sessions = st.sessions
    ∧ (st.setReadyState ref readyState).client.requests = st.client.requests
    ∧ (st.setReadyState ref readyState).uid = st.uid := by
  cases ref <;> exact ⟨rfl, rfl, rfl⟩

theorem ClientSocket.send_frame (stringify : JsValue → String) (outbound : Outbound)
    (st : Runtime) (data : JsValue) :
    (ClientSocket.send stringify outbound st data).1.sessions = st.sessions
    ∧ (ClientSocket.send stringify outbound st data).1.client.requests = st.client.requests
    ∧ (ClientSocket.send stringify outbound st data).1.uid = st.uid := by
  by_cases hopen : st.client.socket.readyState = 1
  · rw [ClientSocket.send_state_open stringify outbound st data hopen]
    exact ⟨rfl, rfl, rfl⟩
  · rw [ClientSocket.send_closed stringify outbound st data hopen]
    exact ClientSocket.reconnect_frame st

theorem Correlated.fail {sessions : List ClientRequest} {requests : Fields (Option Nat)}
    {u : Uid} (h : Correlated sessions requests u) (k : Nat) (c : ClientRequest) (e : JsError)
    (hk : sessions[k]? = some c) :
    Correlated (sessions.set k { c with failed := some e }) requests u := by
  have hlt : k < sessions.length := (List.getElem?_eq_some_iff.mp hk).1
  have hsession : ∀ (j : Nat) (cj : ClientRequest),
      (sessions.set k { c with failed := some e })[j]? = some cj →
      ∃ old : ClientRequest, sessions[j]? = some old ∧ old.id = cj.id
        ∧ old.response = cj.response := by
    intro j cj hj
    by_cases hjk : k = j
    · subst hjk
      rw [List.getElem?_set_self hlt] at hj
      cases hj
      exact ⟨c, hk, rfl, rfl⟩
    · rw [List.getElem?_set_ne hjk] at hj
      exact ⟨cj, hj, rfl, rfl⟩
  refine ⟨h.released_issued, ?_, h.released_nodup, ?_, ?_⟩
  · intro j cj hj
    obtain ⟨old, hold, hid, _⟩ := hsession j cj hj
    rw [← hid]
    exact h.sessions_issued j old hold
  · intro j cj hj hpending
    obtain ⟨old, hold, hid, hresponse⟩ := hsession j cj hj
    rw [← hid]
    exact h.pending_registered j old hold (hresponse.trans hpending)
  · intro id j hown
    obtain ⟨cj, hcj, hpending, hid⟩ := h.registered_pending id j hown
    by_cases hjk : k = j
    · subst hjk
      rw [hk] at hcj
      cases hcj
      exact ⟨{ c with failed := some e }, List.getElem?_set_self hlt, hpending, hid⟩
    · exact ⟨cj, by rw [List.getElem?_set_ne hjk]; exact hcj, hpending, hid⟩

theorem ClientRequest.send_correlated (stringify : JsValue → String) (outbound : Outbound)
    (st : Runtime) (k : Nat) (h : st.Correlated) :
    (ClientRequest.send stringify outbound st k).1.Correlated := by
  unfold ClientRequest.send
  cases hk : st.sessions[k]? with
  | none => exact h
  | some context =>
    obtain ⟨hs, hr, hu⟩ := ClientSocket.send_frame stringify outbound st (.obj context.payload)
    have hsent : (ClientSocket.send stringify outbound st (.obj context.payload)).1.Correlated :=
      h.frame ⟨hs, hr, hu⟩
    simp only []
    split
    · exact hsent
    · rename_i e _
      have hk1 : (ClientSocket.send stringify outbound st (.obj context.payload)).1.sessions[k]?
          = some context := by rw [hs]; exact hk
      exact Correlated.fail hsent k context e hk1

theorem ClientRequest.new_correlated (st : Runtime) (payload : Fields JsValue)
    (callback : Option Nat) (h : st.Correlated) :
    (ClientRequest.new st payload callback).1.Correlated :=
  Correlated.new h (Fields.assign payload "id" (.str (st.uid.uid).1)) callback

theorem ClientSocket.request_correlated (stringify : JsValue → String) (outbound : Outbound)
    (st : Runtime) (payload : Fields JsValue) (callback : Option Nat) (h : st.Correlated) :
    (ClientSocket.request stringify outbound st payload callback).1.Correlated :=
  ClientRequest.send_correlated stringify outbound _ _
    (ClientRequest.new_correlated st payload callback h)

theorem ClientRequest.resolve_correlated (st : Runtime) (k : Nat) (context : ClientRequest)
    (response : JsValue) (h : st.Correlated) (hk : st.sessions[k]? = some context)
    (hpending : context.response = none) :
    (ClientRequest.resolve st k response).1.Correlated := by
  have := Correlated.resolve h k context response hk hpending
  simpa [Runtime.Correlated, ClientRequest.resolve, hk, hpending] using this

theorem ClientRequest.received_correlated (st : Runtime) (k : Nat) (response : JsValue)
    (h : st.Correlated)
    (hpending : ∀ context : ClientRequest, st.sessions[k]? = some context →
      context.response = none) :
    (ClientRequest.received st k response).1.Correlated := by
  unfold ClientRequest.received
  cases hk : st.sessions[k]? with
  | none => simpa using h
  | some context =>
    cases hc : context.callback with
    | some _ => simpa [hc] using h
    | none =>
      simpa [hc] using
        ClientRequest.resolve_correlated st k context response h hk (hpending context hk)

theorem Fields.own_of_lookup {α : Type} (table : Fields α) (key : String) (value : α)
    (h : Fields.lookup table key = .own value) : Fields.own table key = some value := by
  unfold Fields.lookup at h
  cases hown : Fields.own table key with
  | some v =>
    rw [hown] at h
    simp only [Lookup.own.injEq] at h
    rw [h]
  | none =>
    rw [hown] at h
    cases hproto : Fields.own objectPrototype key <;> rw [hproto] at h <;> cases h

theorem ClientSocket.process_state_registered (jsonParse : String → Except JsError JsValue)
    (st : Runtime) (raw : String) :
    (ClientSocket.process jsonParse st raw).1 = st
    ∨ (∃ message : JsValue, (ClientSocket.process jsonParse st raw).1
        = { st with router := Watcher.updated st.router message })
    ∨ ∃ (k : Nat) (id : String) (message : JsValue),
        Fields.own st.client.requests id = some (some k)
        ∧ (ClientSocket.process jsonParse st raw).1 = (ClientRequest.received st k message).1 := by
  unfold ClientSocket.process
  split
  · exact Or.inl rfl
  · split
    · exact Or.inl rfl
    · split
      · exact Or.inr (Or.inl ⟨_, rfl⟩)
      · split
        · exact Or.inl rfl
        · split
          · rename_i hlookup
            exact Or.inr (Or.inr ⟨_, _, _, Fields.own_of_lookup _ _ _ hlookup, rfl⟩)
          all_goals exact Or.inl rfl

theorem ClientSocket.process_correlated (jsonParse : String → Except JsError JsValue)
    (st : Runtime) (raw : String) (h : st.Correlated) :
    (ClientSocket.process jsonParse st raw).1.Correlated := by
  rcases ClientSocket.process_state_registered jsonParse st raw with
    hsame | ⟨message, hrouted⟩ | ⟨k, id, message, hown, hnext⟩
  · rw [hsame]; exact h
  · rw [hrouted]; exact h.frame ⟨rfl, rfl, rfl⟩
  · rw [hnext]
    apply ClientRequest.received_correlated st k message h
    intro context hk
    obtain ⟨c, hc, hpending, _⟩ := h.registered_pending id k hown
    rw [hk] at hc
    cases hc
    exact hpending

theorem step_correlated (jsonParse : String → Except JsError JsValue)
    (stringify : JsValue → String) (outbound : Outbound) (st : Runtime) (event : Event)
    (h : st.Correlated) (honce : event.ResolvesOnce st) :
    (step jsonParse stringify outbound st event).Correlated := by
  cases event with
  | connect => exact h.frame ⟨rfl, rfl, rfl⟩
  | reconnect => exact h.frame (ClientSocket.reconnect_frame st)
  | send data => exact h.frame (ClientSocket.send_frame stringify outbound st data)
  | request payload callback =>
    exact ClientSocket.request_correlated stringify outbound st payload callback h
  | resolve session response =>
    obtain ⟨context, hk, hpending⟩ := honce
    exact ClientRequest.resolve_correlated st session context response h hk hpending
  | timer handle =>
    simp only [step]
    split_ifs
    · exact h.frame ⟨rfl, rfl, rfl⟩
    · exact h
  | opened ref =>
    simp only [step]
    cases st.socketAt ref with
    | none => exact h
    | some socket =>
      simp only []
      split_ifs
      · exact (h.frame (Runtime.setReadyState_frame st ref 1)).frame (ClientSocket.onopen_frame _)
      · exact h.frame (Runtime.setReadyState_frame st ref 1)
      · exact h
  | closed ref =>
    simp only [step]
    cases st.socketAt ref with
    | none => exact h
    | some socket =>
      simp only []
      split_ifs
      · exact h
      · exact (h.frame (Runtime.setReadyState_frame st ref 3)).frame (ClientSocket.onclose_frame _)
      · exact h.frame (Runtime.setReadyState_frame st ref 3)
  | errored ref =>
    simp only [step]
    cases st.socketAt ref with
    | none => exact h
    | some socket =>
      simp only []
      split_ifs
      · exact h.frame (ClientSocket.onclose_frame st)
      · exact h
  | message ref data =>
    simp only [step]
    cases st.socketAt ref with
    | none => exact h
    | some socket =>
      simp only []
      split_ifs
      · exact ClientSocket.process_correlated jsonParse st data h
      · exact h
  | watch eventName eventAction =>
    simp only [step]
    cases watch st.router eventName eventAction with
    | error e => exact h
    | ok created => exact h.frame ⟨rfl, rfl, rfl⟩

theorem initial_correlated : Runtime.initial.Correlated := by
  refine ⟨?_, ?_, ?_, ?_, ?_⟩
  · intro id hid; cases hid
  · intro k c hk; simp [Runtime.initial] at hk
  · exact List.nodup_nil
  · intro k c hk; simp [Runtime.initial] at hk
  · intro id k hown; simp [Runtime.initial, Fields.own] at hown

theorem reachableOnce_correlated (jsonParse : String → Except JsError JsValue)
    (stringify : JsValue → String) (outbound : Outbound) (st : Runtime)
    (hreach : ReachableOnce jsonParse stringify outbound st) : st.Correlated := by
  induction hreach with
  | initial => exact initial_correlated
  | next st event _ honce ih =>
    exact step_correlated jsonParse stringify outbound st event ih honce

/-- C7, as amended. In every state the client reaches by issuing requests,
processing inbound messages and resolving requests (and by any other event),
provided no session is resolved a second time, two pending sessions that
carry the same correlation identifier are one and the same session, and the
table holds, under the identifier of each pending session, that session. -/
theorem ClientSocket.pending_identifiers_unique (jsonParse : String → Except JsError JsValue)
    (stringify : JsValue → String) (outbound : Outbound) (st : Runtime)
    (hreach : ReachableOnce jsonParse stringify outbound st) :
    (∀ (j k : Nat) (first second : ClientRequest),
        st.sessions[j]? = some first → st.sessions[k]? = some second →
        first.response = none → second.response = none → first.id = second.id → j = k)
    ∧ (∀ (k : Nat) (context : ClientRequest),
        st.sessions[k]? = some context → context.response = none →
        st.client.requests.lookup context.id = .own (some k)) := by
  have hcorrelated := reachableOnce_correlated jsonParse stringify outbound st hreach
  refine ⟨?_, ?_⟩
  · intro j k first second hj hk hfirst hsecond hid
    have h1 := (hcorrelated.pending_registered j first hj hfirst).2
    have h2 := (hcorrelated.pending_registered k second hk hsecond).2
    rw [hid, h2] at h1
    simpa using h1.symm
  · intro k context hk hpending
    have hown := (hcorrelated.pending_registered k context hk hpending).2
    simp [Fields.lookup, hown]

theorem reusedRuntime_reachableOnce :
    ReachableOnce sampleParse sampleStringify sampleOutbound reusedRuntime :=
  ReachableOnce.next _ (.request pingPayload none)
    (ReachableOnce.next _ (.resolve 0 pongMessage)
      (ReachableOnce.next _ (.message .current pongText)
        (ReachableOnce.next _ (.request pingPayload (some 7))
          (ReachableOnce.next _ (.opened .current) ReachableOnce.initial trivial)
          trivial)
        trivial)
      ⟨{ id := "0", payload := Fields.assign pingPayload "id" (.str "0"), callback := some 7,
         response := none }, rfl, rfl⟩)
    trivial

/-- Witness of C7 as amended: in the double resolution example before the
second resolution, session 1 is the pending session that carries "0", and the
table holds it under "0". -/
theorem ClientSocket.pending_identifiers_unique_witness :
    (reusedRuntime.sessions[1]?).map (fun context => (context.id, context.response))
        = some ("0", none)
    ∧ reusedRuntime.client.requests.lookup "0" = .own (some 1) :=
  ⟨rfl,
    (ClientSocket.pending_identifiers_unique sampleParse sampleStringify sampleOutbound
      reusedRuntime reusedRuntime_reachableOnce).2 1
      { id := "0", payload := Fields.assign pingPayload "id" (.str "0"), callback := none,
        response := none }
      rfl rfl⟩

/-- C7 fails as stated. After session 0 has been resolved twice, the second
time once its identifier had been reused by session 1, and a third request
has been issued, sessions 1 and 2 are both pending and both carry the
identifier "0"; the table holds session 2 under "0" and session 1 nowhere. -/
theorem ClientSocket.pending_identifiers_counterexample :
    (collidedRuntime.sessions[1]?).map (fun context => (context.id, context.response))
        = some ("0", none)
    ∧ (collidedRuntime.sessions[2]?).map (fun context => (context.id, context.response))
        = some ("0", none)
    ∧ collidedRuntime.client.requests = [("0", some 2)] :=
  ⟨rfl, rfl, rfl⟩

/-! ### Requests and responses -/

theorem ClientSocket.request_open (stringify : JsValue → String) (outbound : Outbound)
    (st : Runtime) (payload : Fields JsValue) (callback : Option Nat) (plain : Bool)
    (hopen : st.client.socket.readyState = 1)
    (hplain : outbound.isPlainObject
        (.obj (Fields.assign payload "id" (.str (st.uid.uid).1))) = .ok plain)
    (hsend : outbound.send
        (if plain then .str (stringify (.obj (Fields.assign payload "id" (.str (st.uid.uid).1))))
          else .obj (Fields.assign payload "id" (.str (st.uid.uid).1))) = .ok ()) :
    ClientSocket.request stringify outbound st payload callback
      = ({ st with
            uid := (st.uid.uid).2
            sessions := st.sessions ++
              [{ id := (st.uid.uid).1
                 payload := Fields.assign payload "id" (.str (st.uid.uid).1)
                 callback := callback
                 response := none }]
            client := { st.client with
              requests := st.client.requests.assign (st.uid.uid).1 (some st.sessions.length) } },
          st.sessions.length,
          [.socketSend
            (if plain then
              .str (stringify (.obj (Fields.assign payload "id" (.str (st.uid.uid).1))))
            else .obj (Fields.assign payload "id" (.str (st.uid.uid).1)))]) := by
  have hsocket : (ClientRequest.new st payload callback).1.client.socket.readyState = 1 := by
    simpa [ClientRequest.new] using hopen
  have hsent := ClientSocket.send_open stringify outbound (ClientRequest.new st payload callback).1
    (.obj (Fields.assign payload "id" (.str (st.uid.uid).1))) hsocket
  rw [hplain] at hsent
  simp only [hsend] at hsent
  simp [ClientSocket.request, ClientRequest.send, ClientRequest.new, hsent]
  simp [ClientRequest.new] at hsent
  simp [hsent]

/-- C2, as amended. In every state the client reaches without resolving a
session a second time, for every session that was issued without a response
handler and whose eventual response is pending (as it is after a request on
the open socket whose payload the transport took), processing a message
whose `id` is the identifier of the session calls `accept` with the whole
decoded message, which completes the eventual response with it, leaves `null`
in the table under the identifier, so that no request is registered there,
and releases the identifier to the allocator. -/
theorem ClientSocket.request_completed_by_matching_response
    (jsonParse : String → Except JsError JsValue) (stringify : JsValue → String)
    (outbound : Outbound) (st : Runtime) (k : Nat) (context : ClientRequest) (raw : String)
    (message : JsValue)
    (hreach : ReachableOnce jsonParse stringify outbound st)
    (hsession : st.sessions[k]? = some context)
    (hhandler : context.callback = none)
    (hpending : context.eventual = .pending)
    (hdecoded : jsonParse raw = .ok message)
    (hid : message.get "id" = .ok (.str context.id)) :
    (ClientSocket.process jsonParse st raw).2
        = { effects := [.accept k message], raised := none, rejected := none }
    ∧ ((ClientSocket.process jsonParse st raw).1.sessions[k]?).map
          (fun session => session.eventual)
        = some (.fulfilled message)
    ∧ (ClientSocket.process jsonParse st raw).1.client.requests.lookup context.id = .own none
    ∧ context.id ∈ (ClientSocket.process jsonParse st raw).1.uid.released := by
  have hcorrelated := reachableOnce_correlated jsonParse stringify outbound st hreach
  have hstate : context.failed = none ∧ context.response = none := by
    unfold ClientRequest.eventual at hpending
    cases hf : context.failed <;> cases hr : context.response <;> simp [hf, hr] at hpending ⊢
  have hown := (hcorrelated.pending_registered k context hsession hstate.2).2
  have htruthy := (hcorrelated.sessions_issued k context hsession).truthy
  have hlt : k < st.sessions.length := (List.getElem?_eq_some_iff.mp hsession).1
  have hprocess : ClientSocket.process jsonParse st raw
      = ((ClientRequest.resolve st k message).1,
          { effects := (ClientRequest.resolve st k message).2, raised := none,
            rejected := none }) := by
    simp [ClientSocket.process, hdecoded, hid, htruthy, JsValue.toPropertyKey, Fields.lookup,
      hown, ClientRequest.received, hsession, hhandler]
  rw [hprocess]
  refine ⟨?_, ?_, ?_, ?_⟩
  · simp [ClientRequest.resolve, hsession]
  · simp [ClientRequest.resolve, hsession, hstate.2, List.getElem?_set_self hlt,
      ClientRequest.eventual, hstate.1]
  · simp [ClientRequest.resolve, hsession, Fields.lookup_assign]
  · simp [ClientRequest.resolve, hsession, Uid.free]

theorem pingedRuntime_reachableOnce :
    ReachableOnce sampleParse sampleStringify sampleOutbound pingedRuntime :=
  ReachableOnce.next _ (.request pingPayload none)
    (ReachableOnce.next _ (.opened .current) ReachableOnce.initial trivial)
    trivial

/-- Witness of C2 as amended: the first request of an opened client gets the
identifier "0" and its payload is taken by the transport; the response
carrying "0" and `pong: true` completes its eventual response with the whole
message, leaves `null` under "0" and releases "0". -/
theorem ClientSocket.request_completed_by_matching_response_witness :
    openedRuntime.client.socket.readyState = 1
    ∧ (ClientSocket.request sampleStringify sampleOutbound openedRuntime pingPayload none).1
        = pingedRuntime
    ∧ (pingedRuntime.sessions[0]?).map (fun session => (session.id, session.eventual))
        = some ("0", .pending)
    ∧ sampleParse pongText = .ok pongMessage
    ∧ pongMessage.get "id" = .ok (.str "0")
    ∧ (ClientSocket.process sampleParse pingedRuntime pongText).2.effects
        = [.accept 0 pongMessage]
    ∧ ((ClientSocket.process sampleParse pingedRuntime pongText).1.sessions[0]?).map
          (fun session => session.eventual)
        = some (.fulfilled pongMessage)
    ∧ (ClientSocket.process sampleParse pingedRuntime pongText).1.client.requests.lookup "0"
        = .own none
    ∧ "0" ∈ (ClientSocket.process sampleParse pingedRuntime pongText).1.uid.released :=
  ⟨rfl, rfl, rfl, rfl, rfl, rfl,
    (ClientSocket.request_completed_by_matching_response sampleParse sampleStringify
      sampleOutbound pingedRuntime 0
      { id := "0", payload := Fields.assign pingPayload "id" (.str "0"), callback := none,
        response := none }
      pongText pongMessage pingedRuntime_reachableOnce rfl rfl rfl rfl rfl).2.1,
    (ClientSocket.request_completed_by_matching_response sampleParse sampleStringify
      sampleOutbound pingedRuntime 0
      { id := "0", payload := Fields.assign pingPayload "id" (.str "0"), callback := none,
        response := none }
      pongText pongMessage pingedRuntime_reachableOnce rfl rfl rfl rfl rfl).2.2.1,
    (ClientSocket.request_completed_by_matching_response sampleParse sampleStringify
      sampleOutbound pingedRuntime 0
      { id := "0", payload := Fields.assign pingPayload "id" (.str "0"), callback := none,
        response := none }
      pongText pongMessage pingedRuntime_reachableOnce rfl rfl rfl rfl rfl).2.2.2⟩

/-- C2 fails as stated. (1) In the double resolution example session 1 was
issued on the open socket without a response handler and carries the
identifier "0"; once session 0 has been resolved a second time the table
holds `null` under "0", so processing the message whose `id` is "0" does
nothing and the eventual response of session 1 stays pending. (2) A request
whose payload has an own property `constructor` is issued on the open socket
without a response handler: `isPlainObject` does not accept the payload, the
socket raises on the object handed to it and the eventual response is
rejected with that TypeError; processing the message that carries its
identifier calls `accept`, and the eventual response is still the rejected
one, not completed with the message. -/
theorem ClientSocket.request_completed_counterexample :
    (run sampleParse sampleStringify sampleOutbound Runtime.initial
        (reuseEvents.take 4)).client.socket.readyState = 1
    ∧ run sampleParse sampleStringify sampleOutbound Runtime.initial
        (reuseEvents.take 4 ++ [.request pingPayload none, .resolve 0 pongMessage])
        = resolvedAgainRuntime
    ∧ (resolvedAgainRuntime.sessions[1]?).map
          (fun session => (session.id, session.callback, session.eventual))
        = some ("0", none, .pending)
    ∧ resolvedAgainRuntime.client.requests.lookup "0" = .own none
    ∧ sampleParse pongText = .ok pongMessage
    ∧ pongMessage.get "id" = .ok (.str "0")
    ∧ (ClientSocket.process sampleParse resolvedAgainRuntime pongText).2 = Outcome.quiet
    ∧ ((ClientSocket.process sampleParse resolvedAgainRuntime pongText).1.sessions[1]?).map
          (fun session => session.eventual)
        = some .pending
    ∧ openedRuntime.client.socket.readyState = 1
    ∧ (ClientSocket.request sampleStringify sampleOutbound openedRuntime constructorPayload
          none).1 = refusedRuntime
    ∧ (ClientSocket.request sampleStringify sampleOutbound openedRuntime constructorPayload
          none).2.2
        = [.socketSend (.obj (Fields.assign constructorPayload "id" (.str "0")))]
    ∧ (refusedRuntime.sessions[0]?).map
          (fun session => (session.id, session.callback, session.eventual))
        = some ("0", none, .rejected .typeError)
    ∧ (ClientSocket.process sampleParse refusedRuntime pongText).2.effects
        = [.accept 0 pongMessage]
    ∧ ((ClientSocket.process sampleParse refusedRuntime pongText).1.sessions[0]?).map
          (fun session => session.eventual)
        = some (.rejected .typeError) :=
  ⟨rfl, rfl, rfl, rfl, rfl, rfl, rfl, rfl, rfl, rfl, rfl, rfl, rfl, rfl⟩

/-! ### The hypotheses hold in every reachable state -/

theorem Runtime.IdsIssued.carry {st next : Runtime} (h : st.IdsIssued)
    (hframe : next.sessions = st.sessions ∧ next.client.requests = st.client.requests
      ∧ next.uid = st.uid) : next.IdsIssued := by
  unfold Runtime.IdsIssued at h ⊢
  rw [hframe.1, hframe.2.2]
  exact h

theorem ClientRequest.new_idsIssued (st : Runtime) (payload : Fields JsValue)
    (callback : Option Nat) (h : st.IdsIssued) :
    (ClientRequest.new st payload callback).1.IdsIssued := by
  refine ⟨?_, ?_⟩
  · intro id hid
    exact (h.1 id (Uid.uid_released_subset st.uid id hid)).mono (Uid.uid_count st.uid)
  · intro context hcontext
    simp only [ClientRequest.new, List.mem_append, List.mem_singleton] at hcontext
    rcases hcontext with hold | rfl
    · exact (h.2 context hold).mono (Uid.uid_count st.uid)
    · exact Uid.uid_issued st.uid h.1

theorem ClientRequest.resolve_idsIssued (st : Runtime) (k : Nat) (response : JsValue)
    (h : st.IdsIssued) : (ClientRequest.resolve st k response).1.IdsIssued := by
  unfold ClientRequest.resolve
  cases hk : st.sessions[k]? with
  | none => exact h
  | some context =>
    have hmem : context ∈ st.sessions := List.getElem?_mem hk
    refine ⟨?_, ?_⟩
    · intro id hid
      simp only [Uid.free, List.mem_append, List.mem_singleton] at hid
      rcases hid with hid | rfl
      · exact h.1 id hid
      · exact h.2 context hmem
    · intro c hc
      rcases List.mem_or_eq_of_mem_set hc with hold | rfl
      · exact h.2 c hold
      · cases hr : context.response <;> simpa [hr] using h.2 context hmem

theorem ClientSocket.process_idsIssued (jsonParse : String → Except JsError JsValue)
    (st : Runtime) (raw : String) (h : st.IdsIssued) :
    (ClientSocket.process jsonParse st raw).1.IdsIssued := by
  rcases ClientSocket.process_state jsonParse st raw with
    hsame | ⟨message, hrouted⟩ | ⟨k, message, hnext⟩
  · rw [hsame]; exact h
  · rw [hrouted]; exact h.carry ⟨rfl, rfl, rfl⟩
  · rw [hnext]
    unfold ClientRequest.received
    cases hk : st.sessions[k]? with
    | none => exact h
    | some context =>
      cases hc : context.callback with
      | some _ => simpa [hc] using h
      | none => simpa [hc] using ClientRequest.resolve_idsIssued st k message h

theorem ClientRequest.send_idsIssued (stringify : JsValue → String) (outbound : Outbound)
    (st : Runtime) (k : Nat) (h : st.IdsIssued) :
    (ClientRequest.send stringify outbound st k).1.IdsIssued := by
  unfold ClientRequest.send
  cases hk : st.sessions[k]? with
  | none => exact h
  | some context =>
    obtain ⟨hs, hr, hu⟩ := ClientSocket.send_frame stringify outbound st (.obj context.payload)
    have hsent : (ClientSocket.send stringify outbound st (.obj context.payload)).1.IdsIssued :=
      h.carry ⟨hs, hr, hu⟩
    simp only []
    split
    · exact hsent
    · refine ⟨hsent.1, ?_⟩
      intro c hc
      rcases List.mem_or_eq_of_mem_set hc with hold | rfl
      · exact hsent.2 c hold
      · have hmem : context ∈ st.sessions := List.getElem?_mem hk
        show (ClientSocket.send stringify outbound st (.obj context.payload)).1.uid.Issued
          context.id
        rw [hu]
        exact h.2 context hmem

theorem step_idsIssued (jsonParse : String → Except JsError JsValue)
    (stringify : JsValue → String) (outbound : Outbound) (st : Runtime) (event : Event)
    (h : st.IdsIssued) : (step jsonParse stringify outbound st event).IdsIssued := by
  cases event with
  | connect => exact h.carry ⟨rfl, rfl, rfl⟩
  | reconnect => exact h.carry (ClientSocket.reconnect_frame st)
  | send data => exact h.carry (ClientSocket.send_frame stringify outbound st data)
  | request payload callback =>
    exact ClientRequest.send_idsIssued stringify outbound _ _
      (ClientRequest.new_idsIssued st payload callback h)
  | resolve session response => exact ClientRequest.resolve_idsIssued st session response h
  | timer handle =>
    simp only [step]
    split_ifs
    · exact h.carry ⟨rfl, rfl, rfl⟩
    · exact h
  | opened ref =>
    simp only [step]
    cases st.socketAt ref with
    | none => exact h
    | some socket =>
      simp only []
      split_ifs
      · exact (h.carry (Runtime.setReadyState_frame st ref 1)).carry (ClientSocket.onopen_frame _)
      · exact h.carry (Runtime.setReadyState_frame st ref 1)
      · exact h
  | closed ref =>
    simp only [step]
    cases st.socketAt ref with
    | none => exact h
    | some socket =>
      simp only []
      split_ifs
      · exact h
      · exact (h.carry (Runtime.setReadyState_frame st ref 3)).carry (ClientSocket.onclose_frame _)
      · exact h.carry (Runtime.setReadyState_frame st ref 3)
  | errored ref =>
    simp only [step]
    cases st.socketAt ref with
    | none => exact h
    | some socket =>
      simp only []
      split_ifs
      · exact h.carry (ClientSocket.onclose_frame st)
      · exact h
  | message ref data =>
    simp only [step]
    cases st.socketAt ref with
    | none => exact h
    | some socket =>
      simp only []
      split_ifs
      · exact ClientSocket.process_idsIssued jsonParse st data h
      · exact h
  | watch eventName eventAction =>
    simp only [step]
    cases watch st.router eventName eventAction with
    | error e => exact h
    | ok created => exact h.carry ⟨rfl, rfl, rfl⟩

theorem Watcher.start_regexKept (r started : Router) (watcher : Watcher)
    (hkind : watcher.eventType = some .regex →
      ∃ regex : RegExp, watcher.eventName = .pattern regex)
    (h : r.RegexKept) (hstart : Watcher.start r watcher = .ok started) :
    started.RegexKept := by
  unfold Watcher.start at hstart
  cases hcell : r.cells[watcher.ref]? with
  | none =>
    simp only [hcell, Except.ok.injEq] at hstart
    rw [← hstart]; exact h
  | some cell =>
    simp only [hcell] at hstart
    cases hid : cell.id with
    | some _ =>
      simp only [hid, Except.ok.injEq] at hstart
      rw [← hstart]; exact h
    | none =>
      simp only [hid] at hstart
      cases htype : watcher.eventType with
      | none => simp [Watcher.container, htype] at hstart
      | some kind =>
        cases kind with
        | string =>
          cases hname : watcher.eventName with
          | text topic =>
            cases hlookup : r.containerPrimary.lookup topic with
            | own watchers =>
              simp only [Watcher.container, htype, hname, hlookup, Except.ok.injEq] at hstart
              rw [← hstart]; exact h
            | inherited len => simp [Watcher.container, htype, hname, hlookup] at hstart
            | missing => simp [Watcher.container, htype, hname, hlookup] at hstart
          | pattern test => simp [Watcher.container, htype, hname] at hstart
          | other => simp [Watcher.container, htype, hname] at hstart
        | regex =>
          simp only [Watcher.container, htype, Except.ok.injEq] at hstart
          rw [← hstart]
          intro x hx
          simp only [List.mem_append, List.mem_singleton] at hx
          rcases hx with hold | rfl
          · exact h x hold
          · exact hkind htype

theorem watch_regexKept (r created : Router) (watcher : Watcher) (eventName : EventName)
    (eventAction : JsValue → Except JsError Unit) (h : r.RegexKept)
    (hwatch : watch r eventName eventAction = .ok (created, watcher)) : created.RegexKept := by
  unfold watch Watcher.new at hwatch
  simp only [] at hwatch
  split at hwatch
  · rename_i started hstart
    simp only [Except.ok.injEq, Prod.mk.injEq] at hwatch
    rw [← hwatch.1]
    refine Watcher.start_regexKept _ started _ ?_ ?_ hstart
    · intro htype
      cases eventName with
      | text topic =>
        exfalso
        simp only at htype
        split at htype <;> cases htype
      | pattern test => exact ⟨test, rfl⟩
      | other => cases htype
    · cases eventName with
      | text topic =>
        simp only []
        split <;> exact h
      | pattern test => exact h
      | other => exact h
  · cases hwatch

theorem ClientSocket.send_router (stringify : JsValue → String) (outbound : Outbound)
    (st : Runtime) (data : JsValue) :
    (ClientSocket.send stringify outbound st data).1.router = st.router := by
  by_cases hopen : st.client.socket.readyState = 1
  · rw [ClientSocket.send_state_open stringify outbound st data hopen]
  · rw [ClientSocket.send_closed stringify outbound st data hopen]
    exact (ClientSocket.reconnect_sessions st).2.2.2

theorem ClientSocket.request_router (stringify : JsValue → String) (outbound : Outbound)
    (st : Runtime) (payload : Fields JsValue) (callback : Option Nat) :
    (ClientSocket.request stringify outbound st payload callback).1.router = st.router := by
  simp only [ClientSocket.request, ClientRequest.send]
  cases (ClientRequest.new st payload callback).1.sessions[
      (ClientRequest.new st payload callback).2]? with
  | none => rfl
  | some context =>
    have hsent := ClientSocket.send_router stringify outbound
      (ClientRequest.new st payload callback).1 (.obj context.payload)
    simp only []
    split
    · rw [hsent]; rfl
    · show (ClientSocket.send stringify outbound (ClientRequest.new st payload callback).1
        (.obj context.payload)).1.router = st.router
      rw [hsent]; rfl

theorem step_regexKept (jsonParse : String → Except JsError JsValue)
    (stringify : JsValue → String) (outbound : Outbound) (st : Runtime) (event : Event)
    (h : st.router.RegexKept) : (step jsonParse stringify outbound st event).router.RegexKept := by
  have hrouter : (step jsonParse stringify outbound st event).router.containerRegex
        = st.router.containerRegex
      ∨ ∃ (eventName : EventName) (eventAction : JsValue → Except JsError Unit)
          (watcher : Watcher),
          watch st.router eventName eventAction
            = .ok ((step jsonParse stringify outbound st event).router, watcher) := by
    cases event with
    | connect => exact Or.inl rfl
    | reconnect => exact Or.inl (congrArg _ (ClientSocket.reconnect_sessions st).2.2.2)
    | send data => exact Or.inl (congrArg _ (ClientSocket.send_router stringify outbound st data))
    | request payload callback =>
      exact Or.inl (congrArg _
        (ClientSocket.request_router stringify outbound st payload callback))
    | resolve session response =>
      exact Or.inl (congrArg _ (ClientRequest.resolve_router st session response))
    | timer handle =>
      left
      simp only [step]
      split_ifs <;> rfl
    | opened ref =>
      left
      simp only [step]
      cases st.socketAt ref with
      | none => rfl
      | some socket =>
        simp only []
        split_ifs
        · cases ref <;> simp only [ClientSocket.onopen, Runtime.setReadyState] <;>
            cases st.client.connectInterval <;> rfl
        · cases ref <;> rfl
        · rfl
    | closed ref =>
      left
      simp only [step]
      cases st.socketAt ref with
      | none => rfl
      | some socket =>
        simp only []
        split_ifs
        · rfl
        · cases ref <;> simp only [ClientSocket.onclose, Runtime.setReadyState] <;>
            cases st.client.connectInterval <;>
            simp only [(ClientSocket.reconnect_sessions _).2.2.2]
        · cases ref <;> rfl
    | errored ref =>
      left
      simp only [step]
      cases st.socketAt ref with
      | none => rfl
      | some socket =>
        simp only []
        split_ifs
        · simp only [ClientSocket.onclose]
          cases st.client.connectInterval <;>
            simp only [(ClientSocket.reconnect_sessions _).2.2.2]
        · rfl
    | message ref data =>
      left
      simp only [step]
      cases st.socketAt ref with
      | none => rfl
      | some socket =>
        simp only []
        split_ifs
        · rcases ClientSocket.process_state jsonParse st data with
            hsame | ⟨message, hrouted⟩ | ⟨k, message, hnext⟩
          · rw [hsame]
          · rw [hrouted]; rfl
          · rw [hnext, ClientRequest.received_router st k message]
        · rfl
    | watch eventName eventAction =>
      simp only [step]
      cases hwatch : watch st.router eventName eventAction with
      | error e => exact Or.inl rfl
      | ok created => exact Or.inr ⟨eventName, eventAction, created.2, by rw [hwatch]⟩
  rcases hrouter with hsame | ⟨eventName, eventAction, watcher, hwatch⟩
  · unfold Router.RegexKept
    rw [hsame]; exact h
  · exact watch_regexKept st.router _ watcher eventName eventAction h hwatch

theorem Reachable.invariants (jsonParse : String → Except JsError JsValue)
    (stringify : JsValue → String) (outbound : Outbound) (st : Runtime)
    (hreach : Reachable jsonParse stringify outbound st) :
    st.TimerKept ∧ st.IdsIssued ∧ st.router.RegexKept := by
  obtain ⟨events, rfl⟩ := hreach
  have hall : ∀ (events : List Event) (start : Runtime),
      start.TimerKept ∧ start.IdsIssued ∧ start.router.RegexKept →
      (run jsonParse stringify outbound start events).TimerKept
        ∧ (run jsonParse stringify outbound start events).IdsIssued
        ∧ (run jsonParse stringify outbound start events).router.RegexKept := by
    intro events
    induction events with
    | nil => intro start h; exact h
    | cons event rest ih =>
      intro start h
      exact ih _ ⟨step_timerKept jsonParse stringify outbound start event h.1,
        step_idsIssued jsonParse stringify outbound start event h.2.1,
        step_regexKept jsonParse stringify outbound start event h.2.2⟩
  refine hall events Runtime.initial ⟨initial_timerKept, ?_, ?_⟩
  · exact ⟨fun id hid => (by cases hid), fun context hcontext => (by cases hcontext)⟩
  · intro watcher hw
    cases hw

/-! ### Stopping subscriptions -/

theorem Watcher.stop_cells (drop : List Watcher → Nat → List Watcher) (r stopped : Router)
    (watcher : Watcher) (cell : WatcherCell) (id : Nat)
    (hcell : r.cells[watcher.ref]? = some cell) (hid : cell.id = some id)
    (hfirst : Watcher.stop drop r watcher = .ok stopped) :
    stopped.cells = r.cells.set watcher.ref { id := none, active := some false } := by
  unfold Watcher.stop at hfirst
  simp only [hcell, hid] at hfirst
  cases htype : watcher.eventType with
  | none => simp [Watcher.container, htype] at hfirst
  | some kind =>
    cases kind with
    | string =>
      cases hname : watcher.eventName with
      | text topic =>
        cases hlookup : r.containerPrimary.lookup topic with
        | own watchers =>
          simp only [Watcher.container, htype, hname, hlookup, Except.ok.injEq] at hfirst
          rw [← hfirst]
        | inherited len => simp [Watcher.container, htype, hname, hlookup] at hfirst
        | missing => simp [Watcher.container, htype, hname, hlookup] at hfirst
      | pattern test => simp [Watcher.container, htype, hname] at hfirst
      | other => simp [Watcher.container, htype, hname] at hfirst
    | regex =>
      simp only [Watcher.container, htype, Except.ok.injEq] at hfirst
      rw [← hfirst]

/-- C12. Whatever the helper `drop` does to an array and whatever the state
of the router, once a call of `stop()` on a subscription has returned, a
second call returns normally and changes nothing: the router it leaves,
with every container and the `id` and `active` of every subscription, the
stopped one included, is the router the first call left. -/
theorem Watcher.stop_twice_is_noop (drop : List Watcher → Nat → List Watcher)
    (r stopped : Router) (watcher : Watcher)
    (hfirst : Watcher.stop drop r watcher = .ok stopped) :
    Watcher.stop drop stopped watcher = .ok stopped := by
  cases hcell : r.cells[watcher.ref]? with
  | none =>
    have hsame : stopped = r := by
      simp only [Watcher.stop, hcell, Except.ok.injEq] at hfirst
      exact hfirst.symm
    rw [hsame]
    simp [Watcher.stop, hcell]
  | some cell =>
    cases hid : cell.id with
    | none =>
      have hsame : stopped = r := by
        simp only [Watcher.stop, hcell, hid, Except.ok.injEq] at hfirst
        exact hfirst.symm
      rw [hsame]
      simp [Watcher.stop, hcell, hid]
    | some id =>
      have hlt : watcher.ref < r.cells.length := (List.getElem?_eq_some_iff.mp hcell).1
      have hcells := Watcher.stop_cells drop r stopped watcher cell id hcell hid hfirst
      have hstopped : stopped.cells[watcher.ref]? = some { id := none, active := some false } := by
        rw [hcells, List.getElem?_set_self hlt]
      simp [Watcher.stop, hstopped]

/-- Witness of C12: the first subscription on T is stopped a second time;
the router stays as the first `stop()` left it. -/
theorem Watcher.stop_twice_is_noop_witness :
    (Router.initial.applyAll drop stopFirstOps).cells
        = [{ id := none, active := some false }, { id := some 1, active := some true }]
    ∧ Watcher.stop drop (Router.initial.applyAll drop stopFirstOps) (topicWatcher 0 "T")
        = .ok (Router.initial.applyAll drop stopFirstOps) :=
  ⟨rfl,
    Watcher.stop_twice_is_noop drop
      (Router.initial.applyAll drop
        [.watch (.text "T") quietAction, .watch (.text "T") quietAction])
      (Router.initial.applyAll drop stopFirstOps) (topicWatcher 0 "T") rfl⟩

/-- C11 fails on the code. With the helper `drop` of the library, two
subscriptions are made on the topic T and the first is stopped: the second,
which keeps its `id` and stays active, leaves the container with it, and an
event of type T invokes no subscription. When three subscriptions are made
on T and the first is stopped and then the second, the third, which is
active, is not invoked by an event of type T, with either reading of the
helper. With the removal of the one element at the index in the place of
`drop`, the second call removes the element at the stale index 1, which is
the third subscription, so the stopped second subscription stays registered
and is invoked in place of the active third. -/
theorem Watcher.stop_removes_siblings :
    ((Router.initial.applyAll drop
        [.watch (.text "T") quietAction, .watch (.text "T") quietAction]).exact
          (.str "T")).map (fun watcher => watcher.ref) = [0, 1]
    ∧ ((Router.initial.applyAll drop stopFirstOps).exact (.str "T")).map
          (fun watcher => watcher.ref) = []
    ∧ (Router.initial.applyAll drop stopFirstOps).cells
        = [{ id := none, active := some false }, { id := some 1, active := some true }]
    ∧ (Watcher.update (Router.initial.applyAll drop stopFirstOps) pushMessage).calls = []
    ∧ (Router.initial.applyAll drop stopTwoOps).cells
        = [{ id := none, active := some false }, { id := none, active := some false },
           { id := some 2, active := some true }]
    ∧ (Watcher.update (Router.initial.applyAll drop stopTwoOps) pushMessage).calls = []
    ∧ ((Router.initial.applyAll dropOne stopTwoOps).exact (.str "T")).map
          (fun watcher => watcher.ref) = [1]
    ∧ (Router.initial.applyAll dropOne stopTwoOps).cells
        = [{ id := none, active := some false }, { id := none, active := some false },
           { id := some 2, active := some true }]
    ∧ (Watcher.update (Router.initial.applyAll dropOne stopTwoOps) pushMessage).calls
        = [(1, topicBody)] :=
  ⟨rfl, rfl, rfl, rfl, rfl, rfl, rfl, rfl, rfl⟩

/-- C13 fails on the code. While no subscription was ever made on the type T,
an event of type T with the path `/p` is dispatched to the subscription on
`/p`. Once a subscription on T has been made and stopped, the type has no
subscription left, but the empty array kept under T is truthy and is taken as
`levelObject`: the same event invokes nothing. The outcome is the same with
the helper `drop` of the library and with the removal of one element. -/
theorem Watcher.update_skips_path_once_type_emptied :
    (Watcher.update (Router.initial.applyAll drop [.watch (.text "/p") quietAction])
        pathMessage).calls = [(0, pathBody)]
    ∧ ((Router.initial.applyAll drop stopTypeOps).exact (.str "T")).map
          (fun watcher => watcher.ref) = []
    ∧ ((Router.initial.applyAll drop stopTypeOps).exact (.str "/p")).map
          (fun watcher => watcher.ref) = [1]
    ∧ (Router.initial.applyAll drop stopTypeOps).cells
        = [{ id := none, active := some false }, { id := some 0, active := some true }]
    ∧ (Watcher.update (Router.initial.applyAll drop stopTypeOps) pathMessage).calls = []
    ∧ (Watcher.update (Router.initial.applyAll dropOne stopTypeOps) pathMessage).calls = [] :=
  ⟨rfl, rfl, rfl, rfl, rfl, rfl⟩

end SoloNFTSDK
